import Mathlib

/-!
# Shopping-cart backend (`backend/main.go`): model and verified properties

A shallow embedding of the HTTP handlers of `backend/main.go`.

* The relational store (`db *gorm.DB`, SQLite) is a record of six tables, each a list of
  rows kept in primary-key order, which is the order SQLite scans a rowid table in and the
  order `First` (`ORDER BY id LIMIT 1`) picks from.
* A Go `uint` is a natural number below `2 ^ 64`; SQLite holds signed 64-bit integers. A
  `uint` from `2 ^ 63` on is written as a negative integer, and a row that holds one cannot
  be read back into its struct: the query then returns an error, like a query that finds
  no row. As a primary key such a value is refused.
* A handler is a function from the store and the decoded request to the new store and the
  response written with `c.JSON`.
* The two libraries whose internals are cryptographic (`bcrypt`, `jwt`) are a parameter
  `Lib`; what the handlers do with their results is modelled, what they compute is not.
* I/O errors of the store are outside the model, and so is the CORS middleware, which does
  not touch the store or the handlers. The tables `users` and `items`, whose primary keys a
  request can choose, refuse an insert once the largest row id is taken; the other four
  tables, whose ids only `AUTOINCREMENT` assigns, are taken never to run out of ids.
* Requests are served one at a time.
-/

namespace ShoppingCart

/-! ## Models -/

/-- Go struct `User`; also a row of table `users`. -/
structure User where
  ID : Nat
  Username : String
  Password : String
  Token : String
deriving DecidableEq, Repr

/-- Go struct `Item`; also a row of table `items`. `Price` is a `float64` that no handler
computes with: it is carried as its IEEE-754 bit pattern. -/
structure Item where
  ID : Nat
  Name : String
  Description : String
  Price : Nat
deriving DecidableEq, Repr

/-- Columns of a row of table `carts` (`id`, `user_id`). -/
structure CartRow where
  ID : Nat
  UserID : Nat
deriving DecidableEq, Repr

/-- Columns of a row of table `cart_items` (`id`, `cart_id`, `item_id`). -/
structure CartItemRow where
  ID : Nat
  CartID : Nat
  ItemID : Nat
deriving DecidableEq, Repr

/-- Columns of a row of table `orders` (`id`, `user_id`). -/
structure OrderRow where
  ID : Nat
  UserID : Nat
deriving DecidableEq, Repr

/-- Columns of a row of table `order_items` (`id`, `order_id`, `item_id`). -/
structure OrderItemRow where
  ID : Nat
  OrderID : Nat
  ItemID : Nat
deriving DecidableEq, Repr

/-- Go struct `CartItem` as it is serialised, with the association `Item`. -/
structure CartItem where
  ID : Nat
  CartID : Nat
  ItemID : Nat
  Item : Item
deriving DecidableEq, Repr

/-- Go struct `Cart` as it is serialised, with the associations `User` and `Items`. -/
structure Cart where
  ID : Nat
  UserID : Nat
  User : User
  Items : List CartItem
deriving DecidableEq, Repr

/-- Go struct `OrderItem` as it is serialised, with the association `Item`. -/
structure OrderItem where
  ID : Nat
  OrderID : Nat
  ItemID : Nat
  Item : Item
deriving DecidableEq, Repr

/-- Go struct `Order` as it is serialised, with the associations `User` and `Items`. -/
structure Order where
  ID : Nat
  UserID : Nat
  User : User
  Items : List OrderItem
deriving DecidableEq, Repr

/-- The zero value of `User` (an association that was not preloaded). -/
def User.zero : User := ⟨0, "", "", ""⟩

/-- The zero value of `Item`. -/
def Item.zero : Item := ⟨0, "", "", 0⟩

/-! ## Request and response structs -/

structure LoginRequest where
  Username : String
  Password : String
deriving DecidableEq, Repr

structure LoginResponse where
  Token : String
  User : User
deriving DecidableEq, Repr

structure AddToCartRequest where
  ItemID : Nat
deriving DecidableEq, Repr

structure CreateOrderRequest where
  CartID : Nat
deriving DecidableEq, Repr

/-- The JSON value a handler passes to `c.JSON`. -/
inductive Body where
  /-- `gin.H{"error": msg}` -/
  | error (msg : String)
  /-- `gin.H{"message": msg}` -/
  | message (msg : String)
  /-- `gin.H{"message": msg, "order_id": id}` -/
  | orderCreated (msg : String) (order_id : Nat)
  | user (u : User)
  | users (us : List User)
  | login (r : LoginResponse)
  | item (i : Item)
  | items (is : List Item)
  | cart (c : Cart)
  | orders (os : List Order)
  /-- No body written (the recovery middleware of `gin.Default()` answering a panic). -/
  | empty
deriving DecidableEq, Repr

structure Response where
  status : Nat
  body : Body
deriving DecidableEq, Repr

/-- Every `User` value serialised inside a response body, nested ones included. -/
def Body.usersIn : Body → List User
  | .user u => [u]
  | .users us => us
  | .login r => [r.User]
  | .cart c => [c.User]
  | .orders os => os.map (fun o => o.User)
  | _ => []

/-! ## The store -/

/-- The database: six tables in primary-key order. `cartItemSeq` is the `sqlite_sequence`
counter of `cart_items`, the one table rows are deleted from (for the others the counter
equals the largest id in the table). -/
structure DB where
  users : List User
  items : List Item
  carts : List CartRow
  cartItems : List CartItemRow
  orders : List OrderRow
  orderItems : List OrderItemRow
  cartItemSeq : Nat
deriving DecidableEq, Repr

/-- The store right after `AutoMigrate` on a new database file. -/
def DB.empty : DB := ⟨[], [], [], [], [], [], 0⟩

/-- The id `AUTOINCREMENT` assigns: one more than the largest id the table holds or has
ever held. -/
def nextID (seq : Nat) (ids : List Nat) : Nat := max seq (ids.foldr max 0) + 1

/-- The largest row id of SQLite. -/
def maxRowID : Nat := 2 ^ 63 - 1

/-- The bit pattern a `REAL` column gives back for the one written: SQLite keeps a value
without fractional part as an integer, which loses the sign of `-0.0`. -/
def storedPrice (bits : Nat) : Nat := if bits = 2 ^ 63 then 0 else bits

/-- Row insertion at the place its primary key belongs. -/
def insertByID {α : Type} (id : α → Nat) (r : α) : List α → List α
  | [] => [r]
  | x :: xs => if id r < id x then r :: x :: xs else x :: insertByID id r xs

/-- `db.Create(&user)`: fails on a `unique` (username) violation, on a primary key that is
taken or above the largest row id, and when `AUTOINCREMENT` has no id left; a zero `ID` is
assigned by `AUTOINCREMENT`. Returns the store and the struct as GORM leaves it. -/
def DB.createUser (db : DB) (user : User) : Option (DB × User) :=
  if db.users.any (fun u => u.Username = user.Username) then none
  else if user.ID ≠ 0 ∧ (maxRowID < user.ID ∨ db.users.any (fun u => u.ID = user.ID)) then
    none
  else
    let id := if user.ID = 0 then nextID 0 (db.users.map (fun u => u.ID)) else user.ID
    if maxRowID < id then none
    else
      let user : User := { user with ID := id }
      some ({ db with users := insertByID (fun u => u.ID) user db.users }, user)

/-- `db.Create(&item)`: fails on a primary key that is taken or above the largest row id,
and when `AUTOINCREMENT` has no id left. The struct keeps the price of the request; the row
holds it as the column gives it back. -/
def DB.createItem (db : DB) (item : Item) : Option (DB × Item) :=
  if item.ID ≠ 0 ∧ (maxRowID < item.ID ∨ db.items.any (fun i => i.ID = item.ID)) then none
  else
    let id := if item.ID = 0 then nextID 0 (db.items.map (fun i => i.ID)) else item.ID
    if maxRowID < id then none
    else
      let item : Item := { item with ID := id }
      let row : Item := { item with Price := storedPrice item.Price }
      some ({ db with items := insertByID (fun i => i.ID) row db.items }, item)

/-- `db.Create(&cart)` for `Cart{UserID: userID}`. The insert succeeds for every `userID`:
one from `2 ^ 63` on is written as a negative `user_id`. -/
def DB.createCart (db : DB) (userID : Nat) : DB × CartRow :=
  let cart : CartRow := ⟨nextID 0 (db.carts.map (fun c => c.ID)), userID⟩
  ({ db with carts := db.carts ++ [cart] }, cart)

/-- `db.Create(&cartItem)` for `CartItem{CartID: cartID, ItemID: itemID}`. -/
def DB.createCartItem (db : DB) (cartID itemID : Nat) : DB × CartItemRow :=
  let row : CartItemRow :=
    ⟨nextID db.cartItemSeq (db.cartItems.map (fun r => r.ID)), cartID, itemID⟩
  ({ db with cartItems := db.cartItems ++ [row], cartItemSeq := row.ID }, row)

/-- `db.Create(&order)` for `Order{UserID: userID}`. -/
def DB.createOrder (db : DB) (userID : Nat) : DB × OrderRow :=
  let order : OrderRow := ⟨nextID 0 (db.orders.map (fun o => o.ID)), userID⟩
  ({ db with orders := db.orders ++ [order] }, order)

/-- `db.Create(&orderItem)` for `OrderItem{OrderID: orderID, ItemID: itemID}`. -/
def DB.createOrderItem (db : DB) (orderID itemID : Nat) : DB :=
  let row : OrderItemRow := ⟨nextID 0 (db.orderItems.map (fun r => r.ID)), orderID, itemID⟩
  { db with orderItems := db.orderItems ++ [row] }

/-- `First(&cart)` on the rows of `carts` that satisfy the `Where` condition: the first
match, when its `user_id` can be read back into the `uint` field. `none` is any error of
the query, `ErrRecordNotFound` or the failed scan of a negative `user_id`; the handlers
test `err != nil` only. -/
def DB.firstCart (db : DB) (cond : CartRow → Bool) : Option CartRow :=
  match db.carts.find? cond with
  | some cart => if cart.UserID < 2 ^ 63 then some cart else none
  | none => none

/-- `Preload("Item")` on one foreign key: the item row, or the zero value. -/
def DB.itemOf (db : DB) (itemID : Nat) : Item :=
  (db.items.find? (fun i => i.ID = itemID)).getD Item.zero

/-- The rows of `cart_items` of one cart (`Preload("Items")` on a cart). -/
def DB.cartLines (db : DB) (cartID : Nat) : List CartItemRow :=
  db.cartItems.filter (fun r => r.CartID = cartID)

/-- The rows of `order_items` of one order (`Preload("Items")` on an order). -/
def DB.orderLines (db : DB) (orderID : Nat) : List OrderItemRow :=
  db.orderItems.filter (fun r => r.OrderID = orderID)

/-! ## Libraries -/

/-- A non-negative integral `float64`: `mant * 2 ^ exp` with a 53-bit significand.
Negative and fractional values are outside the model. -/
structure Float64 where
  mant : Nat
  exp : Nat
  mant_lt : mant < 2 ^ 53

/-- Go conversion `uint(f)`. For a value from `2 ^ 64` on Go leaves the result to the
implementation; it is `2 ^ 63` as compiled for amd64. -/
def Float64.toUint (f : Float64) : Nat :=
  if f.mant * 2 ^ f.exp < 2 ^ 64 then f.mant * 2 ^ f.exp else 2 ^ 63

/-- A dynamically typed Go value held in `jwt.MapClaims`. -/
inductive Value where
  | uint (n : Nat)
  | int64 (n : Int)
  | float64 (f : Float64)
  | string (s : String)
  | bool (b : Bool)
  | null

/-- Go type `jwt.MapClaims`. -/
abbrev MapClaims := List (String × Value)

/-- The library calls of `bcrypt` and `jwt`, each with the error result folded into
`Option` or `Bool`:
* `GenerateFromPassword pw` is `bcrypt.GenerateFromPassword([]byte(pw), bcrypt.DefaultCost)`;
* `CompareHashAndPassword hash pw` is true when the call returns a nil error;
* `SignedString claims key` is `jwt.NewWithClaims(jwt.SigningMethodHS256, claims).SignedString(key)`;
* `Parse tokenString key now` is `jwt.Parse` with a key function returning `key`, run at
  Unix time `now`: the token's claims when `err == nil && token.Valid`, else `none`. -/
structure Lib where
  GenerateFromPassword : String → Option String
  CompareHashAndPassword : String → String → Bool
  SignedString : MapClaims → String → Option String
  Parse : String → String → Nat → Option MapClaims

def jwtSecret : String := "your-secret-key"

/-! ## A reference implementation of the libraries

Used to run the handlers on concrete requests. It keeps the properties of the real
libraries that the handlers can observe: `bcrypt` refuses to hash a password of more than
72 bytes and reads no more than the first 72 bytes of the key (the password and a zero
byte, repeated), and `jwt.Parse` decodes the claims from JSON into
`map[string]interface{}`, so every number in them is a `float64`. The hash and the
signature are stand-ins. -/

/-- The least `e ≤ fuel` with `n / 2 ^ e < 2 ^ 53` (counting from `e`). -/
def float64Exp (n : Nat) : Nat → Nat → Nat
  | 0, e => e
  | fuel + 1, e => if n / 2 ^ e < 2 ^ 53 then e else float64Exp n fuel (e + 1)

/-- The `float64` nearest to the integer `n`, ties to the even significand: what
`encoding/json` decodes the number `n` to. (The significand found is below `2 ^ 53`, so
the remainder leaves it as it is.) -/
def Float64.ofNat (n : Nat) : Float64 :=
  let e := float64Exp n n 0
  let q := n / 2 ^ e
  let r := n % 2 ^ e
  let up := 2 * r > 2 ^ e ∨ (2 * r = 2 ^ e ∧ q % 2 = 1)
  let m := if up then q + 1 else q
  if m = 2 ^ 53 then ⟨2 ^ 52, e + 1, by norm_num⟩
  else ⟨m % 2 ^ 53, e, Nat.mod_lt _ (by norm_num)⟩

/-- JSON decoding of one numeric claim into `interface{}`. -/
def jsonDecodeNumber (n : Nat) : Value := .float64 (Float64.ofNat n)

/-- Decimal digits, most significant first; the empty list for `none`. -/
def encodeClaim : Option Value → List Char
  | some (.uint n) => Nat.toDigits 10 n
  | some (.int64 n) => Nat.toDigits 10 n.toNat
  | _ => []

def decodeDigits (cs : List Char) : Nat :=
  cs.foldl (fun acc c => acc * 10 + (c.toNat - 48)) 0

/-- The fields of a compact token, separated by `.`. -/
def splitDots : List Char → List (List Char)
  | [] => [[]]
  | c :: cs =>
    if c = '.' then [] :: splitDots cs
    else match splitDots cs with
      | [] => [[c]]
      | field :: fields => (c :: field) :: fields

/-- Stand-in for `SignedString`: header, the claims `user_id` and `exp` in decimal, and the
key in the place of the signature. -/
def refSignedString (claims : MapClaims) (key : String) : Option String :=
  some (String.mk ("eyJ".data ++ ['.'] ++ encodeClaim (claims.lookup "user_id") ++ ['.'] ++
    encodeClaim (claims.lookup "exp") ++ ['.'] ++ key.data))

/-- Stand-in for `jwt.Parse`: the signature must be the key, the claim `exp` when present
must lie after `now`, and the numbers come back as `float64`. -/
def refParse (tokenString key : String) (now : Nat) : Option MapClaims :=
  match splitDots tokenString.data with
  | [header, uid, exp, signature] =>
    if header = "eyJ".data ∧ signature = key.data ∧ (exp = [] ∨ now < decodeDigits exp) then
      some ((if uid = [] then [] else [("user_id", jsonDecodeNumber (decodeDigits uid))]) ++
        (if exp = [] then [] else [("exp", jsonDecodeNumber (decodeDigits exp))]))
    else none
  | _ => none

/-- The bytes of a Go string. -/
def utf8Bytes (s : String) : List UInt8 := (s.data.map String.utf8EncodeChar).flatten

/-- The 72 bytes of the key that `bcrypt` reads: the password and a zero byte, repeated. -/
def bcryptKey (pw : String) : List UInt8 :=
  ((List.replicate 72 (utf8Bytes pw ++ [0])).flatten).take 72

/-- Stand-in for the hash: the version tag and the key bytes as characters. -/
def refHash (pw : String) : String :=
  "$2a$10$" ++ String.mk ((bcryptKey pw).map (fun b => Char.ofNat b.toNat))

/-- The reference libraries. -/
def refLib : Lib where
  GenerateFromPassword pw := if (utf8Bytes pw).length > 72 then none else some (refHash pw)
  CompareHashAndPassword hash pw := decide (hash = refHash pw)
  SignedString := refSignedString
  Parse := refParse

/-! ## Request binding (`c.ShouldBindJSON`)

A request body is given as the result of JSON decoding into the target struct: `.error msg`
when decoding fails, `.ok v` otherwise, an absent field left at its zero value. Binding
then runs the `binding:"required"` validators, which reject a zero value. -/

def requiredMsg (struct field : String) : String :=
  "Key: \x27" ++ struct ++ "." ++ field ++ "\x27 Error:Field validation for \x27" ++ field ++
    "\x27 failed on the \x27required\x27 tag"

/-- `ShouldBindJSON(&req)` for `LoginRequest`: both fields are `required`. -/
def bindLoginRequest (body : Except String LoginRequest) : Except String LoginRequest :=
  match body with
  | .error e => .error e
  | .ok req =>
    if req.Username = "" ∧ req.Password = "" then
      .error (requiredMsg "LoginRequest" "Username" ++ "\n" ++
        requiredMsg "LoginRequest" "Password")
    else if req.Username = "" then .error (requiredMsg "LoginRequest" "Username")
    else if req.Password = "" then .error (requiredMsg "LoginRequest" "Password")
    else .ok req

/-- `ShouldBindJSON(&req)` for `AddToCartRequest`: `item_id` is `required`. -/
def bindAddToCartRequest (body : Except String AddToCartRequest) :
    Except String AddToCartRequest :=
  match body with
  | .error e => .error e
  | .ok req =>
    if req.ItemID = 0 then .error (requiredMsg "AddToCartRequest" "ItemID") else .ok req

/-- `ShouldBindJSON(&req)` for `CreateOrderRequest`: `cart_id` is `required`. -/
def bindCreateOrderRequest (body : Except String CreateOrderRequest) :
    Except String CreateOrderRequest :=
  match body with
  | .error e => .error e
  | .ok req =>
    if req.CartID = 0 then .error (requiredMsg "CreateOrderRequest" "CartID") else .ok req

/-! ## Handlers -/

/-- The five rows `seedItems` inserts. -/
def seedRows : List Item :=
  [⟨0, "Laptop", "High-performance laptop", 4652007220880259154⟩,
   ⟨0, "Mouse", "Wireless mouse", 4629134652233681469⟩,
   ⟨0, "Keyboard", "Mechanical keyboard", 4636032900225417871⟩,
   ⟨0, "Monitor", "4K monitor", 4643985096083075236⟩,
   ⟨0, "Headphones", "Noise-cancelling headphones", 4641240539138285896⟩]

/-- Function `seedItems`. -/
def seedItems (db : DB) : DB :=
  if db.items.length = 0 then
    seedRows.foldl (fun d item => match d.createItem item with
      | some (d1, _) => d1
      | none => d) db
  else db

/-- What `authMiddleware` does with a request. -/
inductive AuthResult where
  /-- `c.JSON(...)`, `c.Abort()`: the response is written and the handler does not run. -/
  | abort (resp : Response)
  /-- `c.Set("user_id", userID)`, `c.Next()`. -/
  | next (userID : Nat)
  /-- A failed type assertion: a run-time panic inside the middleware. -/
  | panicked
deriving DecidableEq, Repr

/-- Function `authMiddleware`, on the value of the `Authorization` header (empty when the
header is absent). `len(tokenString) > 7 && tokenString[:7] == "Bearer "` is on bytes in
Go; a string whose first seven bytes are the ASCII text `Bearer ` has more than seven
bytes exactly when it has more than seven characters, so the test is the same on
characters. -/
def authMiddleware (L : Lib) (now : Nat) (authorization : String) : AuthResult :=
  let tokenString := authorization
  if tokenString = "" then
    .abort ⟨401, .error "Authorization header required"⟩
  else
    let tokenString :=
      if tokenString.length > 7 ∧ tokenString.data.take 7 = "Bearer ".data then
        String.mk (tokenString.data.drop 7)
      else tokenString
    match L.Parse tokenString jwtSecret now with
    | none => .abort ⟨401, .error "Invalid token"⟩
    | some claims =>
      match claims.lookup "user_id" with
      | some (.float64 f) => .next f.toUint
      | _ => .panicked

/-- Handler `createUser`. -/
def createUser (L : Lib) (db : DB) (body : Except String User) : DB × Response :=
  match body with
  | .error e => (db, ⟨400, .error e⟩)
  | .ok user =>
    match L.GenerateFromPassword user.Password with
    | none => (db, ⟨500, .error "Failed to hash password"⟩)
    | some hashedPassword =>
      let user := { user with Password := hashedPassword }
      match db.createUser user with
      | none => (db, ⟨400, .error "Username already exists"⟩)
      | some (db1, user) =>
        let user := { user with Password := "" }
        (db1, ⟨201, .user user⟩)

/-- Row insertion at the place its username belongs in the unique index on `username`
(byte order, which for UTF-8 is the order of the characters). -/
def insertByUsername (r : User) : List User → List User
  | [] => [r]
  | x :: xs => if r.Username < x.Username then r :: x :: xs else x :: insertByUsername r xs

/-- Handler `getUsers`: `Select("id, username")` leaves the other fields at zero. The two
columns are read from the index on `username`, so the rows come in username order. -/
def getUsers (db : DB) : DB × Response :=
  (db, ⟨200, .users ((db.users.foldr insertByUsername []).map
    (fun u => ⟨u.ID, u.Username, "", ""⟩))⟩)

/-- `db.Model(&user).Update("token", tokenString)`. -/
def DB.updateToken (db : DB) (userID : Nat) (tokenString : String) : DB :=
  { db with users := db.users.map (fun u =>
      if u.ID = userID then { u with Token := tokenString } else u) }

/-- The claims `loginUser` signs at Unix time `now`. -/
def loginClaims (userID now : Nat) : MapClaims :=
  [("user_id", .uint userID), ("exp", .int64 (now + 86400 : Nat))]

/-- Handler `loginUser`, run at Unix time `now` (`time.Now().Unix()`). -/
def loginUser (L : Lib) (db : DB) (now : Nat) (body : Except String LoginRequest) :
    DB × Response :=
  match bindLoginRequest body with
  | .error e => (db, ⟨400, .error e⟩)
  | .ok req =>
    match db.users.find? (fun u => u.Username = req.Username) with
    | none => (db, ⟨401, .error "Invalid username/password"⟩)
    | some user =>
      if L.CompareHashAndPassword user.Password req.Password = false then
        (db, ⟨401, .error "Invalid username/password"⟩)
      else
        match L.SignedString (loginClaims user.ID now) jwtSecret with
        | none => (db, ⟨500, .error "Failed to generate token"⟩)
        | some tokenString =>
          let db1 := db.updateToken user.ID tokenString
          let user := { user with Token := tokenString, Password := "" }
          (db1, ⟨200, .login ⟨tokenString, user⟩⟩)

/-- Handler `createItem`. -/
def createItem (db : DB) (body : Except String Item) : DB × Response :=
  match body with
  | .error e => (db, ⟨400, .error e⟩)
  | .ok item =>
    match db.createItem item with
    | none => (db, ⟨500, .error "Failed to create item"⟩)
    | some (db1, item) => (db1, ⟨201, .item item⟩)

/-- Handler `getItems`. -/
def getItems (db : DB) : DB × Response :=
  (db, ⟨200, .items db.items⟩)

/-- Handler `addToCart`, with `userID` the value `authMiddleware` put in the context. Any
error of the cart lookup leads to a new cart. The insert of the cart line has no constraint
to violate, so its error branch is never taken. -/
def addToCart (db : DB) (userID : Nat) (body : Except String AddToCartRequest) :
    DB × Response :=
  match bindAddToCartRequest body with
  | .error e => (db, ⟨400, .error e⟩)
  | .ok req =>
    match db.items.find? (fun i => i.ID = req.ItemID) with
    | none => (db, ⟨404, .error "Item not found"⟩)
    | some _ =>
      let (db1, cart) :=
        match db.firstCart (fun c => c.UserID = userID) with
        | some cart => (db, cart)
        | none => db.createCart userID
      let (db2, _) := db1.createCartItem cart.ID req.ItemID
      (db2, ⟨201, .message "Item added to cart"⟩)

/-- The query of `getCarts`: `Preload("Items.Item").Where("user_id = ?", userID).First`. -/
def DB.firstCartOf (db : DB) (userID : Nat) : Option Cart :=
  (db.firstCart (fun c => c.UserID = userID)).map (fun c =>
    ⟨c.ID, c.UserID, User.zero,
      (db.cartLines c.ID).map (fun r => ⟨r.ID, r.CartID, r.ItemID, db.itemOf r.ItemID⟩)⟩)

/-- Handler `getCarts`. -/
def getCarts (db : DB) (userID : Nat) : DB × Response :=
  match db.firstCartOf userID with
  | none => (db, ⟨404, .error "Cart not found"⟩)
  | some cart => (db, ⟨200, .cart cart⟩)

/-- Handler `createOrder`. The results of the inserts after the first are ignored by the
handler; none of them has a constraint to violate. -/
def createOrder (db : DB) (userID : Nat) (body : Except String CreateOrderRequest) :
    DB × Response :=
  match bindCreateOrderRequest body with
  | .error e => (db, ⟨400, .error e⟩)
  | .ok req =>
    match db.firstCart (fun c => c.ID = req.CartID ∧ c.UserID = userID) with
    | none => (db, ⟨404, .error "Cart not found"⟩)
    | some cart =>
      let items := db.cartLines cart.ID
      if items.length = 0 then (db, ⟨400, .error "Cart is empty"⟩)
      else
        let (db1, order) := db.createOrder userID
        let db2 := items.foldl (fun d cartItem => d.createOrderItem order.ID cartItem.ItemID) db1
        let db3 := { db2 with cartItems := db2.cartItems.filter (fun r => ¬ r.CartID = cart.ID) }
        (db3, ⟨201, .orderCreated "Order created successfully" order.ID⟩)

/-- The query of `getOrders`: `Preload("Items.Item").Where("user_id = ?", userID).Find`,
whose error the handler ignores. For a `userID` from `2 ^ 63` on the matching rows could
not be read and the list is taken to be empty; the handlers produce no such row. -/
def DB.ordersOf (db : DB) (userID : Nat) : List Order :=
  (db.orders.filter (fun o => o.UserID = userID ∧ o.UserID < 2 ^ 63)).map (fun o =>
    ⟨o.ID, o.UserID, User.zero,
      (db.orderLines o.ID).map (fun r => ⟨r.ID, r.OrderID, r.ItemID, db.itemOf r.ItemID⟩)⟩)

/-- Handler `getOrders`. -/
def getOrders (db : DB) (userID : Nat) : DB × Response :=
  (db, ⟨200, .orders (db.ordersOf userID)⟩)

/-! ## Routes -/

/-- A call of one handler, with the user id the authenticated ones read from the context. -/
inductive Call where
  | createUser (body : Except String User)
  | getUsers
  | loginUser (now : Nat) (body : Except String LoginRequest)
  | createItem (body : Except String Item)
  | getItems
  | addToCart (userID : Nat) (body : Except String AddToCartRequest)
  | getCarts (userID : Nat)
  | createOrder (userID : Nat) (body : Except String CreateOrderRequest)
  | getOrders (userID : Nat)

/-- Running one handler call against the store. -/
def Call.run (L : Lib) (db : DB) : Call → DB × Response
  | .createUser body => ShoppingCart.createUser L db body
  | .getUsers => ShoppingCart.getUsers db
  | .loginUser now body => ShoppingCart.loginUser L db now body
  | .createItem body => ShoppingCart.createItem db body
  | .getItems => ShoppingCart.getItems db
  | .addToCart userID body => ShoppingCart.addToCart db userID body
  | .getCarts userID => ShoppingCart.getCarts db userID
  | .createOrder userID body => ShoppingCart.createOrder db userID body
  | .getOrders userID => ShoppingCart.getOrders db userID

/-- An HTTP request to one of the nine routes of `main`, with the `Authorization` header of
the routes behind `authMiddleware`. -/
inductive Request where
  | postUsers (body : Except String User)
  | getUsers
  | postUsersLogin (body : Except String LoginRequest)
  | postItems (body : Except String Item)
  | getItems
  | postCarts (authorization : String) (body : Except String AddToCartRequest)
  | getCarts (authorization : String)
  | postOrders (authorization : String) (body : Except String CreateOrderRequest)
  | getOrders (authorization : String)

/-- A route behind `authMiddleware()`: the handler runs only after `c.Next()`; a panic is
answered by the recovery middleware of `gin.Default()` with status 500 and no body. -/
def withAuth (L : Lib) (db : DB) (now : Nat) (authorization : String)
    (handler : Nat → DB × Response) : DB × Response :=
  match authMiddleware L now authorization with
  | .abort resp => (db, resp)
  | .panicked => (db, ⟨500, .empty⟩)
  | .next userID => handler userID

/-- The router of `main`: the request `req` served at Unix time `now`. -/
def serve (L : Lib) (db : DB) (now : Nat) : Request → DB × Response
  | .postUsers body => createUser L db body
  | .getUsers => getUsers db
  | .postUsersLogin body => loginUser L db now body
  | .postItems body => createItem db body
  | .getItems => getItems db
  | .postCarts authorization body =>
    withAuth L db now authorization (fun userID => addToCart db userID body)
  | .getCarts authorization => withAuth L db now authorization (fun userID => getCarts db userID)
  | .postOrders authorization body =>
    withAuth L db now authorization (fun userID => createOrder db userID body)
  | .getOrders authorization =>
    withAuth L db now authorization (fun userID => getOrders db userID)

/-- The stores of sequential execution: from the empty store, any finite sequence of
start-ups (`seedItems`) and handler calls, one at a time. -/
inductive Reachable (L : Lib) : DB → Prop where
  | empty : Reachable L DB.empty
  | seed {db : DB} : Reachable L db → Reachable L (seedItems db)
  | call {db : DB} (c : Call) : Reachable L db → Reachable L (c.run L db).1

/-- What every store the handlers produce satisfies, whatever the order of their steps:
the ids the store assigns are not 0; every cart line and order line belongs to a row of
`carts` or `orders`; and every stored `uint` other than the owner of a cart, namely the
item ids and the owner of an order, is below `2 ^ 63`, so that the only rows that cannot
be read back are the carts of a user id from `2 ^ 63` on. -/
structure Inv (db : DB) : Prop where
  cartID_ne_zero : ∀ c ∈ db.carts, c.ID ≠ 0
  itemID_ne_zero : ∀ i ∈ db.items, i.ID ≠ 0
  /-- Every cart line belongs to a cart of the table. -/
  cartLine_ref : ∀ r ∈ db.cartItems, ∃ c ∈ db.carts, c.ID = r.CartID
  /-- Every order line belongs to an order of the table. -/
  orderLine_ref : ∀ r ∈ db.orderItems, ∃ o ∈ db.orders, o.ID = r.OrderID
  order_owner : ∀ o ∈ db.orders, o.UserID < 2 ^ 63
  itemID_lt : ∀ i ∈ db.items, i.ID < 2 ^ 63
  cartLine_item : ∀ r ∈ db.cartItems, r.ItemID < 2 ^ 63
  orderLine_item : ∀ r ∈ db.orderItems, r.ItemID < 2 ^ 63

/-- The invariant of sequential execution on the carts: no two carts have the same owner
below `2 ^ 63`, and a cart with an owner from `2 ^ 63` on has a cart line. -/
structure CartInv (db : DB) : Prop where
  oneCart : ((db.carts.filter (fun c => c.UserID < 2 ^ 63)).map (fun c => c.UserID)).Nodup
  line : ∀ c ∈ db.carts, 2 ^ 63 ≤ c.UserID → db.cartLines c.ID ≠ []

/-- Every table is in strictly increasing primary-key order. -/
structure PKOrder (db : DB) : Prop where
  users : (db.users.map (fun r => r.ID)).Pairwise (· < ·)
  items : (db.items.map (fun r => r.ID)).Pairwise (· < ·)
  carts : (db.carts.map (fun r => r.ID)).Pairwise (· < ·)
  cartItems : (db.cartItems.map (fun r => r.ID)).Pairwise (· < ·)
  orders : (db.orders.map (fun r => r.ID)).Pairwise (· < ·)
  orderItems : (db.orderItems.map (fun r => r.ID)).Pairwise (· < ·)

/-- The cart lines of a user as `getCarts` shows them: the `Items` of the cart it returns,
and no line when it answers that the user has no cart. -/
def DB.userLines (db : DB) (userID : Nat) : List CartItem :=
  ((db.firstCartOf userID).map (fun c => c.Items)).getD []

/-! ## Stores used in the examples -/

/-- Seeded catalog; user 7 has added item 1 (`Laptop`) twice. -/
def cartStore : DB :=
  (addToCart (addToCart (seedItems DB.empty) 7 (.ok ⟨1⟩)).1 7 (.ok ⟨1⟩)).1

/-- The empty store after `alice` registered with password `pw123`. -/
def aliceStore : DB := (createUser refLib DB.empty (.ok ⟨0, "alice", "pw123", ""⟩)).1

/-- The empty store after `alice` registered with the id `2 ^ 53 + 1` in the request body. -/
def bigIDStore : DB :=
  (createUser refLib DB.empty (.ok ⟨9007199254740993, "alice", "pw123", ""⟩)).1

/-- A password of 73 bytes. -/
def longPassword : String := String.mk (List.replicate 73 'a')

/-- The `Authorization` header with the token that `loginUser` issues at time 1000 to the
user with id `2 ^ 63 - 1`. -/
def bigUserToken : String := "Bearer eyJ.9223372036854775807.87400.your-secret-key"

/-- The seeded store after `POST /users` with `"id": 9223372036854775807` for `alice` and
her `POST /users/login` at time 1000. -/
def bigUserLogin : DB :=
  (serve refLib
    (serve refLib (seedItems DB.empty) 0
      (.postUsers (.ok ⟨9223372036854775807, "alice", "pw123", ""⟩))).1
    1000 (.postUsersLogin (.ok ⟨"alice", "pw123"⟩))).1

/-- The store `bigUserLogin` after one `POST /carts` for item 1 with `bigUserToken`. -/
def bigUserCart : DB := (serve refLib bigUserLogin 2000 (.postCarts bigUserToken (.ok ⟨1⟩))).1

/-- The store `bigUserCart` after a second `POST /carts` for item 1 with `bigUserToken`. -/
def bigUserCarts : DB := (serve refLib bigUserCart 2000 (.postCarts bigUserToken (.ok ⟨1⟩))).1

/-! ## Lemmas on the store -/

theorem le_foldr_max {ids : List Nat} {x : Nat} (h : x ∈ ids) : x ≤ ids.foldr max 0 := by
  induction ids with
  | nil => simp at h
  | cons a as ih =>
    simp only [List.foldr_cons]
    rcases List.mem_cons.1 h with rfl | h
    · exact le_max_left _ _
    · exact le_trans (ih h) (le_max_right _ _)

theorem lt_nextID {seq : Nat} {ids : List Nat} {x : Nat} (h : x ∈ ids) : x < nextID seq ids := by
  have := le_foldr_max h
  unfold nextID
  omega

theorem nextID_pos (seq : Nat) (ids : List Nat) : nextID seq ids ≠ 0 := by
  unfold nextID
  omega

theorem mem_insertByID {α : Type} (id : α → Nat) (r x : α) (l : List α) :
    x ∈ insertByID id r l ↔ x = r ∨ x ∈ l := by
  induction l with
  | nil => simp [insertByID]
  | cons a as ih =>
    unfold insertByID
    split
    · simp
    · simp only [List.mem_cons, ih]
      tauto

/-- A cart that the lookup returns: a row of the table that satisfies the condition, is the
first such row, and has an owner below `2 ^ 63`. -/
theorem firstCart_some {db : DB} {cond : CartRow → Bool} {c : CartRow}
    (h : db.firstCart cond = some c) :
    db.carts.find? cond = some c ∧ c ∈ db.carts ∧ cond c = true ∧ c.UserID < 2 ^ 63 := by
  unfold DB.firstCart at h
  split at h
  · rename_i cart hfind
    split at h
    · rename_i hlt
      simp only [Option.some.injEq] at h
      subst h
      exact ⟨hfind, List.mem_of_find?_eq_some hfind, List.find?_some hfind, hlt⟩
    · cases h
  · cases h

/-- The lookup by an owner from `2 ^ 63` on fails, whatever the table holds. -/
theorem firstCart_big (db : DB) (cond : CartRow → Bool) (u : Nat) (hu : 2 ^ 63 ≤ u)
    (hcond : ∀ c, cond c = true → c.UserID = u) : db.firstCart cond = none := by
  cases h : db.firstCart cond with
  | none => rfl
  | some c =>
    obtain ⟨_, _, hc, hlt⟩ := firstCart_some h
    have := hcond c hc
    omega

/-- The lookup by an owner below `2 ^ 63` fails only when no row matches. -/
theorem firstCart_none {db : DB} {cond : CartRow → Bool} {u : Nat} (hu : u < 2 ^ 63)
    (hcond : ∀ c, cond c = true → c.UserID = u) (h : db.firstCart cond = none) :
    db.carts.find? cond = none := by
  unfold DB.firstCart at h
  split at h
  · rename_i cart hfind
    split at h
    · cases h
    · rename_i hge
      have := hcond cart (List.find?_some hfind)
      omega
  · assumption

/-- The handler `createOrder` past request binding. -/
theorem createOrder_bound (db : DB) (u k : Nat) (hk : k ≠ 0) :
    createOrder db u (.ok ⟨k⟩) =
      match db.firstCart (fun c => c.ID = k ∧ c.UserID = u) with
      | none => (db, ⟨404, .error "Cart not found"⟩)
      | some cart =>
        if (db.cartLines cart.ID).length = 0 then (db, ⟨400, .error "Cart is empty"⟩)
        else
          let db1 := (db.createOrder u).1
          let order := (db.createOrder u).2
          let db2 := (db.cartLines cart.ID).foldl
            (fun d cartItem => d.createOrderItem order.ID cartItem.ItemID) db1
          ({ db2 with cartItems := db2.cartItems.filter (fun r => ¬ r.CartID = cart.ID) },
            ⟨201, .orderCreated "Order created successfully" order.ID⟩) := by
  simp only [createOrder, bindCreateOrderRequest, hk, ↓reduceIte]

/-- A zero `cart_id` does not pass request binding. -/
theorem createOrder_zero (db : DB) (u : Nat) :
    createOrder db u (.ok ⟨0⟩) =
      (db, ⟨400, .error (requiredMsg "CreateOrderRequest" "CartID")⟩) := by
  simp only [createOrder, bindCreateOrderRequest, ↓reduceIte]

/-- C3 as stated fails: no cart has id 0, yet `createOrder` with `cart_id` 0 answers 400,
not 404. -/
theorem createOrder_cart_id_zero_not_404 :
    (∀ c ∈ cartStore.carts, ¬ (c.ID = 0 ∧ c.UserID = 7)) ∧
      (createOrder cartStore 7 (.ok ⟨0⟩)).2.status = 400 ∧
      (createOrder cartStore 7 (.ok ⟨0⟩)).2.status ≠ 404 := by
  decide

/-- C3, amended: if no cart with id `k` belongs to user `u`, `createOrder` leaves the store
unchanged and answers 404 `Cart not found` when `k ≠ 0`, and 400 when `k = 0` (a zero
`cart_id` does not pass request binding). -/
theorem createOrder_no_such_cart (db : DB) (u k : Nat)
    (hno : ∀ c ∈ db.carts, ¬ (c.ID = k ∧ c.UserID = u)) :
    (k ≠ 0 → createOrder db u (.ok ⟨k⟩) = (db, ⟨404, .error "Cart not found"⟩)) ∧
      (k = 0 → (createOrder db u (.ok ⟨k⟩)).1 = db ∧
        (createOrder db u (.ok ⟨k⟩)).2.status = 400) := by
  constructor
  · intro hk
    have hnone : db.firstCart (fun c => c.ID = k ∧ c.UserID = u) = none := by
      cases hf : db.firstCart (fun c => c.ID = k ∧ c.UserID = u) with
      | none => rfl
      | some c =>
        obtain ⟨_, hc, hcond, _⟩ := firstCart_some hf
        exact absurd (by simpa using hcond) (hno c hc)
    rw [createOrder_bound _ _ _ hk, hnone]
  · intro hk
    subst hk
    rw [createOrder_zero]
    simp

/-- C3 amended, on `cartStore`: user 8 names cart 1, which belongs to user 7. -/
theorem createOrder_no_such_cart_witness :
    createOrder cartStore 8 (.ok ⟨1⟩) = (cartStore, ⟨404, .error "Cart not found"⟩) :=
  (createOrder_no_such_cart cartStore 8 1 (by decide)).1 (by decide)

/-! ## `addToCart` -/

/-- The handler `addToCart` past request binding. -/
theorem addToCart_bound (db : DB) (u x : Nat) (hx : x ≠ 0) :
    addToCart db u (.ok ⟨x⟩) =
      match db.items.find? (fun i => i.ID = x) with
      | none => (db, ⟨404, .error "Item not found"⟩)
      | some _ =>
        match db.firstCart (fun c => c.UserID = u) with
        | some cart => ((db.createCartItem cart.ID x).1, ⟨201, .message "Item added to cart"⟩)
        | none => (((db.createCart u).1.createCartItem (db.createCart u).2.ID x).1,
            ⟨201, .message "Item added to cart"⟩) := by
  simp only [addToCart, bindAddToCartRequest, hx, ↓reduceIte]
  cases db.items.find? (fun i => i.ID = x) with
  | none => rfl
  | some _ =>
    cases db.firstCart (fun c => c.UserID = u) <;> rfl

/-- A zero `item_id` does not pass request binding. -/
theorem addToCart_zero (db : DB) (u : Nat) :
    addToCart db u (.ok ⟨0⟩) =
      (db, ⟨400, .error (requiredMsg "AddToCartRequest" "ItemID")⟩) := by
  simp only [addToCart, bindAddToCartRequest, ↓reduceIte]

/-- C5 as stated fails: 0 is the id of no item, yet `addToCart` with `item_id` 0 answers
400, not 404. -/
theorem addToCart_item_id_zero_not_404 :
    (∀ i ∈ cartStore.items, i.ID ≠ 0) ∧
      (addToCart cartStore 7 (.ok ⟨0⟩)).2.status = 400 ∧
      (addToCart cartStore 7 (.ok ⟨0⟩)).2.status ≠ 404 := by
  decide

/-- C5, amended: if `x` is the id of no item, `addToCart` leaves the store unchanged (no
cart line, no cart) and answers 404 `Item not found` when `x ≠ 0`, and 400 when `x = 0` (a
zero `item_id` does not pass request binding). -/
theorem addToCart_unknown_item (db : DB) (u x : Nat) (hno : ∀ i ∈ db.items, i.ID ≠ x) :
    (x ≠ 0 → addToCart db u (.ok ⟨x⟩) = (db, ⟨404, .error "Item not found"⟩)) ∧
      (x = 0 → (addToCart db u (.ok ⟨x⟩)).1 = db ∧
        (addToCart db u (.ok ⟨x⟩)).2.status = 400) := by
  constructor
  · intro hx
    have hnone : db.items.find? (fun i => i.ID = x) = none := by
      apply List.find?_eq_none.2
      intro i hi
      simpa using hno i hi
    rw [addToCart_bound _ _ _ hx, hnone]
  · intro hx
    subst hx
    rw [addToCart_zero]
    simp

/-- C5 amended, on the seeded store: user 9, who has no cart, adds the unknown item 42. -/
theorem addToCart_unknown_item_witness :
    addToCart (seedItems DB.empty) 9 (.ok ⟨42⟩) =
      (seedItems DB.empty, ⟨404, .error "Item not found"⟩) :=
  (addToCart_unknown_item (seedItems DB.empty) 9 42 (by decide)).1 (by decide)

/-! ## `createUser` -/

/-- C6 as stated fails: `alice` exists, and registering `alice` again with a password of 73
bytes answers 500 (`Failed to hash password`), not 400: the password is hashed before the
insert is tried. -/
theorem createUser_duplicate_long_password_not_400 :
    (∃ u ∈ aliceStore.users, u.Username = "alice") ∧
      createUser refLib aliceStore (.ok ⟨0, "alice", longPassword, ""⟩) =
        (aliceStore, ⟨500, .error "Failed to hash password"⟩) := by
  decide

/-- C6, amended: if a user with the username of the request exists, `createUser` leaves the
store (so the user table, with the first user, its id and its hash) unchanged and creates no
user; it answers 400 `Username already exists` when the password can be hashed, and 500 when
hashing the password fails. -/
theorem createUser_duplicate_username (L : Lib) (db : DB) (user : User)
    (hdup : ∃ u ∈ db.users, u.Username = user.Username) :
    (createUser L db (.ok user)).1 = db ∧
      (∀ hash, L.GenerateFromPassword user.Password = some hash →
        (createUser L db (.ok user)).2 = ⟨400, .error "Username already exists"⟩) ∧
      (L.GenerateFromPassword user.Password = none →
        (createUser L db (.ok user)).2 = ⟨500, .error "Failed to hash password"⟩) := by
  have hany : ∀ pw, db.createUser { user with Password := pw } = none := by
    intro pw
    obtain ⟨u, hu, hname⟩ := hdup
    have : (db.users.any (fun v => v.Username = user.Username)) = true :=
      List.any_eq_true.2 ⟨u, hu, by simpa using hname⟩
    simp only [DB.createUser, this, ↓reduceIte]
  cases hgen : L.GenerateFromPassword user.Password with
  | none => simp [createUser, hgen]
  | some hash => simp [createUser, hgen, hany hash]

/-- C6 amended, on `aliceStore`: `alice` registers again with another password. -/
theorem createUser_duplicate_username_witness :
    createUser refLib aliceStore (.ok ⟨0, "alice", "other", ""⟩) =
      (aliceStore, ⟨400, .error "Username already exists"⟩) :=
  Prod.ext (createUser_duplicate_username refLib aliceStore ⟨0, "alice", "other", ""⟩
      (by decide)).1
    ((createUser_duplicate_username refLib aliceStore ⟨0, "alice", "other", ""⟩
      (by decide)).2.1 (refHash "other") (by decide))

/-! ## No password in a response -/

theorem createUser_no_password (L : Lib) (db : DB) (body : Except String User) (u : User)
    (hu : u ∈ (createUser L db body).2.body.usersIn) : u.Password = "" := by
  unfold createUser at hu
  split at hu
  · simp [Body.usersIn] at hu
  · split at hu
    · simp [Body.usersIn] at hu
    · dsimp only at hu
      split at hu
      · simp [Body.usersIn] at hu
      · simp only [Body.usersIn, List.mem_singleton] at hu
        rw [hu]

theorem getUsers_no_password (db : DB) (u : User)
    (hu : u ∈ (getUsers db).2.body.usersIn) : u.Password = "" := by
  simp only [getUsers, Body.usersIn, List.mem_map] at hu
  obtain ⟨v, _, rfl⟩ := hu
  rfl

theorem loginUser_no_password (L : Lib) (db : DB) (now : Nat) (body : Except String LoginRequest)
    (u : User) (hu : u ∈ (loginUser L db now body).2.body.usersIn) : u.Password = "" := by
  unfold loginUser at hu
  split at hu
  · simp [Body.usersIn] at hu
  · split at hu
    · simp [Body.usersIn] at hu
    · split at hu
      · simp [Body.usersIn] at hu
      · split at hu
        · simp [Body.usersIn] at hu
        · simp only [Body.usersIn, List.mem_singleton] at hu
          rw [hu]

theorem createItem_no_password (db : DB) (body : Except String Item) (u : User)
    (hu : u ∈ (createItem db body).2.body.usersIn) : u.Password = "" := by
  unfold createItem at hu
  split at hu
  · simp [Body.usersIn] at hu
  · split at hu <;> simp [Body.usersIn] at hu

theorem addToCart_no_password (db : DB) (userID : Nat) (body : Except String AddToCartRequest)
    (u : User) (hu : u ∈ (addToCart db userID body).2.body.usersIn) : u.Password = "" := by
  unfold addToCart at hu
  split at hu
  · simp [Body.usersIn] at hu
  · split at hu <;> simp [Body.usersIn] at hu

theorem getCarts_no_password (db : DB) (userID : Nat) (u : User)
    (hu : u ∈ (getCarts db userID).2.body.usersIn) : u.Password = "" := by
  unfold getCarts at hu
  split at hu
  · simp [Body.usersIn] at hu
  · rename_i cart hcart
    simp only [Body.usersIn, List.mem_singleton] at hu
    simp only [DB.firstCartOf, Option.map_eq_some'] at hcart
    obtain ⟨c, _, rfl⟩ := hcart
    rw [hu]
    rfl

theorem createOrder_no_password (db : DB) (userID : Nat) (body : Except String CreateOrderRequest)
    (u : User) (hu : u ∈ (createOrder db userID body).2.body.usersIn) : u.Password = "" := by
  unfold createOrder at hu
  split at hu
  · simp [Body.usersIn] at hu
  · split at hu
    · simp [Body.usersIn] at hu
    · dsimp only at hu
      split at hu <;> simp [Body.usersIn] at hu

theorem getOrders_no_password (db : DB) (userID : Nat) (u : User)
    (hu : u ∈ (getOrders db userID).2.body.usersIn) : u.Password = "" := by
  simp only [getOrders, Body.usersIn, DB.ordersOf, List.map_map, List.mem_map] at hu
  obtain ⟨o, _, rfl⟩ := hu
  rfl

theorem withAuth_no_password (L : Lib) (db : DB) (now : Nat) (authorization : String)
    (handler : Nat → DB × Response)
    (h : ∀ userID, ∀ u ∈ (handler userID).2.body.usersIn, u.Password = "") (u : User)
    (hu : u ∈ (withAuth L db now authorization handler).2.body.usersIn) : u.Password = "" := by
  unfold withAuth at hu
  split at hu
  · rename_i resp hresp
    unfold authMiddleware at hresp
    dsimp only at hresp
    split at hresp
    · cases hresp; simp [Body.usersIn] at hu
    · split at hresp
      · cases hresp; simp [Body.usersIn] at hu
      · split at hresp <;> cases hresp
  · simp [Body.usersIn] at hu
  · exact h _ u hu

/-- C7: every `User` value inside the response body of every handler call, and of every
HTTP request served through the router (the answers of `authMiddleware` included), has an
empty `Password` field; this covers the user nested in a returned cart or order. -/
theorem password_never_in_response (L : Lib) (db : DB) :
    (∀ (c : Call) (u : User), u ∈ (c.run L db).2.body.usersIn → u.Password = "") ∧
      (∀ (now : Nat) (req : Request) (u : User),
        u ∈ (serve L db now req).2.body.usersIn → u.Password = "") := by
  constructor
  · intro c u hu
    cases c with
    | createUser body => exact createUser_no_password L db body u hu
    | getUsers => exact getUsers_no_password db u hu
    | loginUser now body => exact loginUser_no_password L db now body u hu
    | createItem body => exact createItem_no_password db body u hu
    | getItems => simp [Call.run, getItems, Body.usersIn] at hu
    | addToCart userID body => exact addToCart_no_password db userID body u hu
    | getCarts userID => exact getCarts_no_password db userID u hu
    | createOrder userID body => exact createOrder_no_password db userID body u hu
    | getOrders userID => exact getOrders_no_password db userID u hu
  · intro now req u hu
    cases req with
    | postUsers body => exact createUser_no_password L db body u hu
    | getUsers => exact getUsers_no_password db u hu
    | postUsersLogin body => exact loginUser_no_password L db now body u hu
    | postItems body => exact createItem_no_password db body u hu
    | getItems => simp [serve, getItems, Body.usersIn] at hu
    | postCarts a body =>
      exact withAuth_no_password L db now a _ (fun i => addToCart_no_password db i body) u hu
    | getCarts a =>
      exact withAuth_no_password L db now a _ (fun i => getCarts_no_password db i) u hu
    | postOrders a body =>
      exact withAuth_no_password L db now a _ (fun i => createOrder_no_password db i body) u hu
    | getOrders a =>
      exact withAuth_no_password L db now a _ (fun i => getOrders_no_password db i) u hu


/-- C7 on `aliceStore`: the user in the login response of `alice`. -/
theorem password_never_in_response_witness :
    (⟨1, "alice", "", "eyJ.1.87400.your-secret-key"⟩ : User) ∈
        (serve refLib aliceStore 1000
          (.postUsersLogin (.ok ⟨"alice", "pw123"⟩))).2.body.usersIn ∧
      (⟨1, "alice", "", "eyJ.1.87400.your-secret-key"⟩ : User).Password = "" :=
  ⟨by decide, (password_never_in_response refLib aliceStore).2 1000
    (.postUsersLogin (.ok ⟨"alice", "pw123"⟩)) _ (by decide)⟩

/-! ## What every store of the handlers satisfies -/

theorem inv_empty : Inv DB.empty := by
  constructor <;> simp [DB.empty]

/-- A store that differs only in the user table keeps the invariant. -/
theorem Inv.of_tables_eq {db db1 : DB} (h : Inv db) (hi : db1.items = db.items)
    (hc : db1.carts = db.carts) (hci : db1.cartItems = db.cartItems)
    (ho : db1.orders = db.orders) (hoi : db1.orderItems = db.orderItems) : Inv db1 := by
  obtain ⟨h1, h2, h3, h4, h5, h6, h7, h8⟩ := h
  constructor
  · rw [hc]; exact h1
  · rw [hi]; exact h2
  · rw [hc, hci]; exact h3
  · rw [ho, hoi]; exact h4
  · rw [ho]; exact h5
  · rw [hi]; exact h6
  · rw [hci]; exact h7
  · rw [hoi]; exact h8

/-- The store after `db.Create(&user)`: only the user table differs, by one row with a new
id that is not 0. -/
theorem DB.createUser_tables {db db1 : DB} {user user1 : User}
    (hcreate : db.createUser user = some (db1, user1)) :
    user1.ID ≠ 0 ∧ user1.ID ∉ db.users.map (fun u => u.ID) ∧
      db1 = { db with users := insertByID (fun u => u.ID) user1 db.users } := by
  simp only [DB.createUser] at hcreate
  split_ifs at hcreate with h1 h2 h3 h4
  · simp only [Option.some.injEq, Prod.mk.injEq] at hcreate
    obtain ⟨rfl, rfl⟩ := hcreate
    exact ⟨nextID_pos _ _, fun hmem => Nat.lt_irrefl _ (lt_nextID hmem), rfl⟩
  · simp only [Option.some.injEq, Prod.mk.injEq] at hcreate
    obtain ⟨rfl, rfl⟩ := hcreate
    refine ⟨h3, ?_, rfl⟩
    intro hmem
    obtain ⟨i, hi, hieq⟩ := List.mem_map.1 hmem
    exact h2 ⟨h3, Or.inr (List.any_eq_true.2 ⟨i, hi, by simpa using hieq⟩)⟩

/-- What `createUser` does to the store: at most the user table differs. -/
theorem createUser_store (L : Lib) (db : DB) (body : Except String User) :
    ∃ users, (createUser L db body).1 = { db with users := users } := by
  unfold createUser
  split
  · exact ⟨db.users, rfl⟩
  · split
    · exact ⟨db.users, rfl⟩
    · dsimp only
      split
      · exact ⟨db.users, rfl⟩
      · rename_i hcreate
        exact ⟨_, (DB.createUser_tables hcreate).2.2⟩

/-- What `loginUser` does to the store: at most the user table differs. -/
theorem loginUser_store (L : Lib) (db : DB) (now : Nat) (body : Except String LoginRequest) :
    ∃ users, (loginUser L db now body).1 = { db with users := users } := by
  unfold loginUser
  split
  · exact ⟨db.users, rfl⟩
  · split
    · exact ⟨db.users, rfl⟩
    · split
      · exact ⟨db.users, rfl⟩
      · split
        · exact ⟨db.users, rfl⟩
        · exact ⟨_, rfl⟩

/-- The store after `db.Create(&item)`: only the item table differs, by one row with a new
id that is not 0. -/
theorem DB.createItem_tables {db db1 : DB} {item item1 : Item}
    (hcreate : db.createItem item = some (db1, item1)) :
    item1.ID ≠ 0 ∧ item1.ID < 2 ^ 63 ∧ item1.ID ∉ db.items.map (fun i => i.ID) ∧
      ∃ row : Item, row.ID = item1.ID ∧
        db1 = { db with items := insertByID (fun i => i.ID) row db.items } := by
  have hmax : ∀ n : Nat, ¬ maxRowID < n → n < 2 ^ 63 := by
    intro n hn
    simp only [maxRowID] at hn
    omega
  simp only [DB.createItem] at hcreate
  split_ifs at hcreate with h1 h2 h3 h4
  · simp only [Option.some.injEq, Prod.mk.injEq] at hcreate
    obtain ⟨rfl, rfl⟩ := hcreate
    exact ⟨nextID_pos _ _, hmax _ h3, fun hmem => Nat.lt_irrefl _ (lt_nextID hmem),
      ⟨nextID 0 (db.items.map (fun i => i.ID)), item.Name, item.Description,
        storedPrice item.Price⟩, rfl, rfl⟩
  · simp only [Option.some.injEq, Prod.mk.injEq] at hcreate
    obtain ⟨rfl, rfl⟩ := hcreate
    refine ⟨h2, hmax _ h4, ?_, ⟨item.ID, item.Name, item.Description, storedPrice item.Price⟩,
      rfl, rfl⟩
    intro hmem
    obtain ⟨i, hi, hieq⟩ := List.mem_map.1 hmem
    exact h1 ⟨h2, Or.inr (List.any_eq_true.2 ⟨i, hi, by simpa using hieq⟩)⟩

theorem inv_DB_createItem {db db1 : DB} {item item1 : Item}
    (hcreate : db.createItem item = some (db1, item1)) (h : Inv db) : Inv db1 := by
  obtain ⟨hne, hlt, _, row, hrow, rfl⟩ := DB.createItem_tables hcreate
  obtain ⟨h1, h2, h3, h4, h5, h6, h7, h8⟩ := h
  refine ⟨h1, ?_, h3, h4, h5, ?_, h7, h8⟩
  · intro i hi
    rcases (mem_insertByID _ _ _ _).1 hi with rfl | hi
    · rw [hrow]; exact hne
    · exact h2 i hi
  · intro i hi
    rcases (mem_insertByID _ _ _ _).1 hi with rfl | hi
    · rw [hrow]; exact hlt
    · exact h6 i hi

theorem inv_createItem (db : DB) (body : Except String Item) (h : Inv db) :
    Inv (createItem db body).1 := by
  unfold createItem
  split
  · exact h
  · split
    · exact h
    · rename_i hcreate
      exact inv_DB_createItem hcreate h

theorem inv_foldl_createItem (rows : List Item) (db : DB) (h : Inv db) :
    Inv (rows.foldl (fun d item => match d.createItem item with
      | some (d1, _) => d1
      | none => d) db) := by
  induction rows generalizing db with
  | nil => exact h
  | cons r rs ih =>
    simp only [List.foldl_cons]
    apply ih
    split
    · rename_i hcreate
      exact inv_DB_createItem hcreate h
    · exact h

theorem inv_seedItems (db : DB) (h : Inv db) : Inv (seedItems db) := by
  unfold seedItems
  split
  · exact inv_foldl_createItem _ _ h
  · exact h

/-- What `addToCart` does to the store: nothing, or one new cart line on the cart that the
lookup returned, or, when the lookup returned an error, a new cart and one cart line on
it. -/
theorem addToCart_store (db : DB) (u : Nat) (body : Except String AddToCartRequest) :
    (addToCart db u body).1 = db ∨
      (∃ cart x, (∃ i ∈ db.items, i.ID = x) ∧
        db.firstCart (fun c => c.UserID = u) = some cart ∧
        (addToCart db u body).1 = (db.createCartItem cart.ID x).1) ∨
      (∃ x, (∃ i ∈ db.items, i.ID = x) ∧ db.firstCart (fun c => c.UserID = u) = none ∧
        (addToCart db u body).1 =
          ((db.createCart u).1.createCartItem (db.createCart u).2.ID x).1) := by
  unfold addToCart
  split
  · exact Or.inl rfl
  · rename_i req _
    split
    · exact Or.inl rfl
    · rename_i item hitem
      have hx : ∃ i ∈ db.items, i.ID = req.ItemID :=
        ⟨item, List.mem_of_find?_eq_some hitem, by simpa using List.find?_some hitem⟩
      cases hfind : db.firstCart (fun c => c.UserID = u) with
      | some cart => exact Or.inr (Or.inl ⟨cart, req.ItemID, hx, rfl, rfl⟩)
      | none => exact Or.inr (Or.inr ⟨req.ItemID, hx, rfl, rfl⟩)

theorem inv_createCartItem (db : DB) (cart : CartRow) (x : Nat) (hc : cart ∈ db.carts)
    (hx : x < 2 ^ 63) (h : Inv db) : Inv (db.createCartItem cart.ID x).1 := by
  obtain ⟨h1, h2, h3, h4, h5, h6, h7, h8⟩ := h
  refine ⟨h1, h2, ?_, h4, h5, h6, ?_, h8⟩
  · intro r hr
    simp only [DB.createCartItem, List.mem_append, List.mem_singleton] at hr ⊢
    rcases hr with hr | rfl
    · exact h3 r hr
    · exact ⟨cart, hc, rfl⟩
  · intro r hr
    simp only [DB.createCartItem, List.mem_append, List.mem_singleton] at hr
    rcases hr with hr | rfl
    · exact h7 r hr
    · exact hx

theorem inv_createCart (db : DB) (u : Nat) (h : Inv db) : Inv (db.createCart u).1 := by
  obtain ⟨h1, h2, h3, h4, h5, h6, h7, h8⟩ := h
  refine ⟨?_, h2, ?_, h4, h5, h6, h7, h8⟩
  · intro c hc
    simp only [DB.createCart, List.mem_append, List.mem_singleton] at hc
    rcases hc with hc | rfl
    · exact h1 c hc
    · exact nextID_pos _ _
  · intro r hr
    obtain ⟨c, hc, hid⟩ := h3 r hr
    exact ⟨c, by simp [DB.createCart, hc], hid⟩

theorem inv_addToCart (db : DB) (u : Nat) (body : Except String AddToCartRequest) (h : Inv db) :
    Inv (addToCart db u body).1 := by
  have hitem : ∀ x, (∃ i ∈ db.items, i.ID = x) → x < 2 ^ 63 := by
    rintro x ⟨i, hi, rfl⟩
    exact h.itemID_lt i hi
  rcases addToCart_store db u body with heq | ⟨cart, x, hx, hfind, heq⟩ | ⟨x, hx, _, heq⟩
  · rw [heq]; exact h
  · rw [heq]
    exact inv_createCartItem db cart x (firstCart_some hfind).2.1 (hitem x hx) h
  · rw [heq]
    exact inv_createCartItem _ _ x (by simp [DB.createCart]) (hitem x hx)
      (inv_createCart db u h)

/-- The inserts of `createOrder`'s loop: the order-item table grows by one row per cart
line, in order, each row carrying the order's id and the line's item id. -/
theorem foldl_createOrderItem (oid : Nat) (lines : List CartItemRow) (d : DB) :
    ∃ rows : List OrderItemRow,
      lines.foldl (fun d cartItem => d.createOrderItem oid cartItem.ItemID) d =
        { d with orderItems := d.orderItems ++ rows } ∧
      rows.map (fun r => r.ItemID) = lines.map (fun r => r.ItemID) ∧
      ∀ r ∈ rows, r.OrderID = oid := by
  induction lines generalizing d with
  | nil => exact ⟨[], by simp, rfl, by simp⟩
  | cons l ls ih =>
    obtain ⟨rows, heq, hmap, hall⟩ := ih (d.createOrderItem oid l.ItemID)
    refine ⟨⟨nextID 0 (d.orderItems.map (fun r => r.ID)), oid, l.ItemID⟩ :: rows, ?_, ?_, ?_⟩
    · rw [List.foldl_cons, heq]
      simp [DB.createOrderItem]
    · simp [hmap]
    · intro r hr
      rcases List.mem_cons.1 hr with rfl | hr
      · rfl
      · exact hall r hr

/-- The store and response of `createOrder` when the lookup returns a cart that has
lines. -/
theorem createOrder_success (db : DB) (u : Nat) (cart : CartRow) (h0 : cart.ID ≠ 0)
    (hfind : db.firstCart (fun c => c.ID = cart.ID ∧ c.UserID = u) = some cart)
    (hlines : db.cartLines cart.ID ≠ []) :
    ∃ rows : List OrderItemRow,
      createOrder db u (.ok ⟨cart.ID⟩) =
        ({ db with
            cartItems := db.cartItems.filter (fun r => ¬ r.CartID = cart.ID)
            orders := db.orders ++ [⟨nextID 0 (db.orders.map (fun o => o.ID)), u⟩]
            orderItems := db.orderItems ++ rows },
          ⟨201, .orderCreated "Order created successfully"
            (nextID 0 (db.orders.map (fun o => o.ID)))⟩) ∧
      rows.map (fun r => r.ItemID) = (db.cartLines cart.ID).map (fun r => r.ItemID) ∧
      ∀ r ∈ rows, r.OrderID = nextID 0 (db.orders.map (fun o => o.ID)) := by
  obtain ⟨rows, heq, hmap, hall⟩ := foldl_createOrderItem
    (nextID 0 (db.orders.map (fun o => o.ID))) (db.cartLines cart.ID) (db.createOrder u).1
  refine ⟨rows, ?_, hmap, hall⟩
  rw [createOrder_bound _ _ _ h0, hfind]
  have hlen : ¬ (db.cartLines cart.ID).length = 0 := by
    simpa using hlines
  simp only [hlen, ↓reduceIte]
  simp only [DB.createOrder] at heq ⊢
  rw [heq]

theorem mem_cartLines {db : DB} {r : CartItemRow} {k : Nat} :
    r ∈ db.cartLines k ↔ r ∈ db.cartItems ∧ r.CartID = k := by
  simp [DB.cartLines]

/-- What `createOrder` does to the store: nothing, or the order placed from a cart of the
table that the lookup returned, so a cart of a user below `2 ^ 63`. -/
theorem createOrder_store (db : DB) (u : Nat) (body : Except String CreateOrderRequest) :
    (createOrder db u body).1 = db ∨
      ∃ (cart : CartRow) (rows : List OrderItemRow),
        cart ∈ db.carts ∧ cart.UserID = u ∧ u < 2 ^ 63 ∧
        (createOrder db u body).1 =
          { db with
            cartItems := db.cartItems.filter (fun r => ¬ r.CartID = cart.ID)
            orders := db.orders ++ [⟨nextID 0 (db.orders.map (fun o => o.ID)), u⟩]
            orderItems := db.orderItems ++ rows } ∧
        (∀ r ∈ rows, r.OrderID = nextID 0 (db.orders.map (fun o => o.ID))) ∧
        ∀ r ∈ rows, ∃ l ∈ db.cartItems, l.ItemID = r.ItemID := by
  cases body with
  | error e => exact Or.inl rfl
  | ok req =>
    cases req with
    | mk k =>
      by_cases hk : k = 0
      · subst hk
        rw [createOrder_zero]
        exact Or.inl rfl
      · cases hfind : db.firstCart (fun c => c.ID = k ∧ c.UserID = u) with
        | none =>
          rw [createOrder_bound _ _ _ hk, hfind]
          exact Or.inl rfl
        | some cart =>
          obtain ⟨_, hmem, hcond, hlt⟩ := firstCart_some hfind
          simp only [decide_eq_true_eq] at hcond
          obtain ⟨hid, hown⟩ := hcond
          subst hid
          by_cases hlines : db.cartLines cart.ID = []
          · rw [createOrder_bound _ _ _ hk, hfind]
            simp [hlines]
          · obtain ⟨rows, heq, hmap, hall⟩ := createOrder_success db u cart hk hfind hlines
            refine Or.inr ⟨cart, rows, hmem, hown, hown ▸ hlt, by rw [heq], hall, ?_⟩
            intro r hr
            have hri : r.ItemID ∈ rows.map (fun r => r.ItemID) := List.mem_map.2 ⟨r, hr, rfl⟩
            rw [hmap] at hri
            obtain ⟨l, hl, hli⟩ := List.mem_map.1 hri
            exact ⟨l, (mem_cartLines.1 hl).1, hli⟩

theorem inv_createOrder (db : DB) (u : Nat) (body : Except String CreateOrderRequest)
    (h : Inv db) : Inv (createOrder db u body).1 := by
  rcases createOrder_store db u body with heq | ⟨cart, rows, _, _, hlt, heq, hall, hitems⟩
  · rw [heq]; exact h
  · rw [heq]
    obtain ⟨h1, h2, h3, h4, h5, h6, h7, h8⟩ := h
    refine ⟨h1, h2, ?_, ?_, ?_, h6, ?_, ?_⟩
    · intro r hr
      exact h3 r (List.mem_of_mem_filter hr)
    · intro r hr
      simp only [List.mem_append] at hr
      rcases hr with hr | hr
      · obtain ⟨o, ho, hid⟩ := h4 r hr
        exact ⟨o, by simp [ho], hid⟩
      · exact ⟨⟨nextID 0 (db.orders.map (fun o => o.ID)), u⟩, by simp, (hall r hr).symm⟩
    · intro o ho
      simp only [List.mem_append, List.mem_singleton] at ho
      rcases ho with ho | rfl
      · exact h5 o ho
      · exact hlt
    · intro r hr
      exact h7 r (List.mem_of_mem_filter hr)
    · intro r hr
      simp only [List.mem_append] at hr
      rcases hr with hr | hr
      · exact h8 r hr
      · obtain ⟨l, hl, hli⟩ := hitems r hr
        rw [← hli]
        exact h7 l hl

theorem inv_run (L : Lib) (db : DB) (c : Call) (h : Inv db) : Inv (c.run L db).1 := by
  cases c with
  | createUser body =>
    obtain ⟨users, heq⟩ := createUser_store L db body
    simp only [Call.run]
    rw [heq]
    exact h.of_tables_eq rfl rfl rfl rfl rfl
  | getUsers => exact h
  | loginUser now body =>
    obtain ⟨users, heq⟩ := loginUser_store L db now body
    simp only [Call.run]
    rw [heq]
    exact h.of_tables_eq rfl rfl rfl rfl rfl
  | createItem body => exact inv_createItem db body h
  | getItems => exact h
  | addToCart userID body => exact inv_addToCart db userID body h
  | getCarts userID =>
    simp only [Call.run, getCarts]
    split <;> exact h
  | createOrder userID body => exact inv_createOrder db userID body h
  | getOrders userID => exact h

/-- Every store of sequential execution satisfies the invariant. -/
theorem reachable_inv {L : Lib} {db : DB} (h : Reachable L db) : Inv db := by
  induction h with
  | empty => exact inv_empty
  | seed _ ih => exact inv_seedItems _ ih
  | call c _ ih => exact inv_run L _ c ih

/-! ## Primary-key order

The handlers look rows up with `List.find?`, the first match in table order, where GORM's
`First` takes the match with the least primary key. The two agree because every table of a
store of sequential execution is in strictly increasing primary-key order. -/

theorem pairwise_append_nextID {ids : List Nat} (seq : Nat) (h : ids.Pairwise (· < ·)) :
    (ids ++ [nextID seq ids]).Pairwise (· < ·) := by
  rw [List.pairwise_append]
  refine ⟨h, List.pairwise_singleton _ _, ?_⟩
  intro a ha b hb
  rw [List.mem_singleton] at hb
  subst hb
  exact lt_nextID ha

theorem pairwise_insertByID {α : Type} (id : α → Nat) (r : α) (l : List α)
    (h : (l.map id).Pairwise (· < ·)) (hnew : id r ∉ l.map id) :
    ((insertByID id r l).map id).Pairwise (· < ·) := by
  induction l with
  | nil => simp [insertByID]
  | cons x xs ih =>
    simp only [List.map_cons, List.pairwise_cons, List.mem_map, forall_exists_index, and_imp,
      forall_apply_eq_imp_iff₂] at h
    simp only [List.map_cons, List.mem_cons, not_or] at hnew
    unfold insertByID
    split
    · rename_i hlt
      simp only [List.map_cons, List.pairwise_cons, List.mem_cons, List.mem_map,
        forall_eq_or_imp, forall_exists_index, and_imp, forall_apply_eq_imp_iff₂]
      refine ⟨⟨hlt, fun a ha => lt_trans hlt (h.1 a ha)⟩, h.1, h.2⟩
    · rename_i hnlt
      simp only [List.map_cons, List.pairwise_cons, List.mem_map, forall_exists_index, and_imp,
        forall_apply_eq_imp_iff₂]
      refine ⟨?_, ih h.2 hnew.2⟩
      intro a ha
      rcases (mem_insertByID id r a xs).1 ha with rfl | ha
      · have := hnew.1
        omega
      · exact h.1 a ha

/-- In a table in primary-key order two rows with the same id are the same row. -/
theorem eq_of_id_eq {α : Type} (id : α → Nat) {l : List α} (h : (l.map id).Pairwise (· < ·))
    {a b : α} (ha : a ∈ l) (hb : b ∈ l) (hid : id a = id b) : a = b := by
  have hnodup : (l.map id).Nodup := h.imp (fun hlt => Nat.ne_of_lt hlt)
  exact List.inj_on_of_nodup_map hnodup ha hb hid

theorem pkOrder_empty : PKOrder DB.empty := by
  constructor <;> simp [DB.empty]

/-- A store that differs only in the user table, whose ids stay in order, keeps the
order. -/
theorem PKOrder.of_users {db : DB} (h : PKOrder db) (users : List User)
    (hu : (users.map (fun r => r.ID)).Pairwise (· < ·)) :
    PKOrder { db with users := users } :=
  ⟨hu, h.items, h.carts, h.cartItems, h.orders, h.orderItems⟩

theorem pkOrder_createUser (L : Lib) (db : DB) (body : Except String User) (h : PKOrder db) :
    PKOrder (createUser L db body).1 := by
  unfold createUser
  split
  · exact h
  · split
    · exact h
    · dsimp only
      split
      · exact h
      · rename_i hcreate
        obtain ⟨_, hnew, rfl⟩ := DB.createUser_tables hcreate
        exact h.of_users _ (pairwise_insertByID _ _ _ h.users hnew)

theorem pkOrder_loginUser (L : Lib) (db : DB) (now : Nat) (body : Except String LoginRequest)
    (h : PKOrder db) : PKOrder (loginUser L db now body).1 := by
  unfold loginUser
  split
  · exact h
  · split
    · exact h
    · split
      · exact h
      · split
        · exact h
        · apply h.of_users
          have hmap : ∀ (k : Nat) (s : String) (l : List User),
              (l.map (fun u => if u.ID = k then { u with Token := s } else u)).map
                (fun u => u.ID) = l.map (fun u => u.ID) := by
            intro k s l
            rw [List.map_map]
            apply List.map_congr_left
            intro u _
            simp only [Function.comp]
            split <;> rfl
          rw [hmap]
          exact h.users

theorem pkOrder_DB_createItem {db db1 : DB} {item item1 : Item}
    (hcreate : db.createItem item = some (db1, item1)) (h : PKOrder db) : PKOrder db1 := by
  obtain ⟨_, _, hnew, row, hrow, rfl⟩ := DB.createItem_tables hcreate
  obtain ⟨h1, h2, h3, h4, h5, h6⟩ := h
  refine ⟨h1, ?_, h3, h4, h5, h6⟩
  exact pairwise_insertByID _ _ _ h2 (by rw [hrow]; exact hnew)

theorem pkOrder_createItem (db : DB) (body : Except String Item) (h : PKOrder db) :
    PKOrder (createItem db body).1 := by
  unfold createItem
  split
  · exact h
  · split
    · exact h
    · rename_i hcreate
      exact pkOrder_DB_createItem hcreate h

theorem pkOrder_foldl_createItem (rows : List Item) (db : DB) (h : PKOrder db) :
    PKOrder (rows.foldl (fun d item => match d.createItem item with
      | some (d1, _) => d1
      | none => d) db) := by
  induction rows generalizing db with
  | nil => exact h
  | cons r rs ih =>
    simp only [List.foldl_cons]
    apply ih
    split
    · rename_i hcreate
      exact pkOrder_DB_createItem hcreate h
    · exact h

theorem pkOrder_seedItems (db : DB) (h : PKOrder db) : PKOrder (seedItems db) := by
  unfold seedItems
  split
  · exact pkOrder_foldl_createItem _ _ h
  · exact h

theorem pkOrder_createCartItem (db : DB) (cartID x : Nat) (h : PKOrder db) :
    PKOrder (db.createCartItem cartID x).1 := by
  obtain ⟨h1, h2, h3, h4, h5, h6⟩ := h
  refine ⟨h1, h2, h3, ?_, h5, h6⟩
  simp only [DB.createCartItem, List.map_append, List.map_cons, List.map_nil]
  exact pairwise_append_nextID _ h4

theorem pkOrder_createCart (db : DB) (u : Nat) (h : PKOrder db) :
    PKOrder (db.createCart u).1 := by
  obtain ⟨h1, h2, h3, h4, h5, h6⟩ := h
  refine ⟨h1, h2, ?_, h4, h5, h6⟩
  simp only [DB.createCart, List.map_append, List.map_cons, List.map_nil]
  exact pairwise_append_nextID _ h3

theorem pkOrder_addToCart (db : DB) (u : Nat) (body : Except String AddToCartRequest)
    (h : PKOrder db) : PKOrder (addToCart db u body).1 := by
  rcases addToCart_store db u body with heq | ⟨cart, x, _, _, heq⟩ | ⟨x, _, _, heq⟩
  · rw [heq]; exact h
  · rw [heq]; exact pkOrder_createCartItem db _ x h
  · rw [heq]; exact pkOrder_createCartItem _ _ x (pkOrder_createCart db u h)

theorem pkOrder_createOrderItem (db : DB) (oid x : Nat) (h : PKOrder db) :
    PKOrder (db.createOrderItem oid x) := by
  obtain ⟨h1, h2, h3, h4, h5, h6⟩ := h
  refine ⟨h1, h2, h3, h4, h5, ?_⟩
  simp only [DB.createOrderItem, List.map_append, List.map_cons, List.map_nil]
  exact pairwise_append_nextID _ h6

theorem pkOrder_createOrder (db : DB) (u : Nat) (body : Except String CreateOrderRequest)
    (h : PKOrder db) : PKOrder (createOrder db u body).1 := by
  unfold createOrder
  split
  · exact h
  · split
    · exact h
    · dsimp only
      split
      · exact h
      · rename_i cart _ _
        have h1 : PKOrder (db.createOrder u).1 := by
          obtain ⟨h1, h2, h3, h4, h5, h6⟩ := h
          refine ⟨h1, h2, h3, h4, ?_, h6⟩
          simp only [DB.createOrder, List.map_append, List.map_cons, List.map_nil]
          exact pairwise_append_nextID _ h5
        have h2 : ∀ (lines : List CartItemRow) (d : DB), PKOrder d →
            PKOrder (lines.foldl (fun d cartItem =>
              d.createOrderItem (db.createOrder u).2.ID cartItem.ItemID) d) := by
          intro lines
          induction lines with
          | nil => exact fun d hd => hd
          | cons l ls ih =>
            intro d hd
            exact ih _ (pkOrder_createOrderItem d _ _ hd)
        obtain ⟨g1, g2, g3, g4, g5, g6⟩ := h2 (db.cartLines cart.ID) _ h1
        refine ⟨g1, g2, g3, ?_, g5, g6⟩
        exact g4.sublist ((List.filter_sublist _).map _)

/-- Every table of a store of sequential execution is in strictly increasing primary-key
order; in particular primary keys are unique. -/
theorem reachable_pkOrder {L : Lib} {db : DB} (h : Reachable L db) : PKOrder db := by
  induction h with
  | empty => exact pkOrder_empty
  | seed _ ih => exact pkOrder_seedItems _ ih
  | call c _ ih =>
    cases c with
    | createUser body => exact pkOrder_createUser L _ body ih
    | getUsers => exact ih
    | loginUser now body => exact pkOrder_loginUser L _ now body ih
    | createItem body => exact pkOrder_createItem _ body ih
    | getItems => exact ih
    | addToCart userID body => exact pkOrder_addToCart _ userID body ih
    | getCarts userID =>
      simp only [Call.run, getCarts]
      split <;> exact ih
    | createOrder userID body => exact pkOrder_createOrder _ userID body ih
    | getOrders userID => exact ih

/-- In a table in primary-key order, the first match of `List.find?` is the match with the
least primary key, the row `First` returns. -/
theorem find_least {α : Type} (id : α → Nat) (p : α → Bool) (l : List α) (r : α)
    (h : (l.map id).Pairwise (· < ·)) (hfind : l.find? p = some r) :
    ∀ x ∈ l, p x = true → id r ≤ id x := by
  induction l with
  | nil => simp at hfind
  | cons a as ih =>
    simp only [List.map_cons, List.pairwise_cons, List.mem_map, forall_exists_index, and_imp,
      forall_apply_eq_imp_iff₂] at h
    intro x hx hpx
    rw [List.find?_cons] at hfind
    split at hfind
    · simp only [Option.some.injEq] at hfind
      subst hfind
      rcases List.mem_cons.1 hx with rfl | hx
      · exact Nat.le_refl _
      · exact Nat.le_of_lt (h.1 x hx)
    · rename_i hpa
      rcases List.mem_cons.1 hx with rfl | hx
      · rw [hpx] at hpa
        simp at hpa
      · exact ih h.2 hfind x hx hpx

/-! ## The router -/

/-- A request served through the router either leaves the store as it was or is one
handler call. -/
theorem serve_store (L : Lib) (db : DB) (now : Nat) (req : Request) :
    (serve L db now req).1 = db ∨ ∃ c : Call, serve L db now req = c.run L db := by
  have hauth : ∀ (a : String) (handler : Nat → DB × Response),
      (withAuth L db now a handler).1 = db ∨
        ∃ userID, withAuth L db now a handler = handler userID := by
    intro a handler
    unfold withAuth
    split
    · exact Or.inl rfl
    · exact Or.inl rfl
    · rename_i userID _
      exact Or.inr ⟨userID, rfl⟩
  cases req with
  | postUsers body => exact Or.inr ⟨.createUser body, rfl⟩
  | getUsers => exact Or.inl rfl
  | postUsersLogin body => exact Or.inr ⟨.loginUser now body, rfl⟩
  | postItems body => exact Or.inr ⟨.createItem body, rfl⟩
  | getItems => exact Or.inl rfl
  | postCarts a body =>
    rcases hauth a (fun userID => addToCart db userID body) with h | ⟨userID, h⟩
    · exact Or.inl h
    · exact Or.inr ⟨.addToCart userID body, h⟩
  | getCarts a =>
    rcases hauth a (fun userID => getCarts db userID) with h | ⟨userID, h⟩
    · exact Or.inl h
    · exact Or.inr ⟨.getCarts userID, h⟩
  | postOrders a body =>
    rcases hauth a (fun userID => createOrder db userID body) with h | ⟨userID, h⟩
    · exact Or.inl h
    · exact Or.inr ⟨.createOrder userID body, h⟩
  | getOrders a =>
    rcases hauth a (fun userID => getOrders db userID) with h | ⟨userID, h⟩
    · exact Or.inl h
    · exact Or.inr ⟨.getOrders userID, h⟩

/-- The stores reached by serving HTTP requests one at a time are stores of sequential
execution. -/
theorem reachable_serve {L : Lib} {db : DB} (h : Reachable L db) (now : Nat) (req : Request) :
    Reachable L (serve L db now req).1 := by
  rcases serve_store L db now req with heq | ⟨c, heq⟩
  · rw [heq]; exact h
  · rw [heq]; exact Reachable.call c h

theorem reachable_bigUserLogin : Reachable refLib bigUserLogin :=
  reachable_serve (reachable_serve (Reachable.seed Reachable.empty) _ _) _ _

theorem reachable_bigUserCart : Reachable refLib bigUserCart :=
  reachable_serve reachable_bigUserLogin _ _

theorem reachable_bigUserCarts : Reachable refLib bigUserCarts :=
  reachable_serve reachable_bigUserCart _ _

/-! ## The carts in sequential execution -/

theorem cartInv_empty : CartInv DB.empty := by
  constructor <;> simp [DB.empty]

/-- A store with the same carts and cart lines keeps the invariant on the carts. -/
theorem CartInv.of_carts_eq {db db1 : DB} (h : CartInv db) (hc : db1.carts = db.carts)
    (hci : db1.cartItems = db.cartItems) : CartInv db1 := by
  obtain ⟨h1, h2⟩ := h
  constructor
  · rw [hc]; exact h1
  · intro c hcm hbig
    rw [hc] at hcm
    have := h2 c hcm hbig
    simpa only [DB.cartLines, hci] using this

/-- What `createItem` does to the store: at most the item table differs. -/
theorem createItem_store (db : DB) (body : Except String Item) :
    ∃ items, (createItem db body).1 = { db with items := items } := by
  unfold createItem
  split
  · exact ⟨db.items, rfl⟩
  · split
    · exact ⟨db.items, rfl⟩
    · rename_i hcreate
      obtain ⟨_, _, _, row, _, heq⟩ := DB.createItem_tables hcreate
      exact ⟨_, heq⟩

/-- What `seedItems` does to the store: at most the item table differs. -/
theorem seedItems_store (db : DB) : ∃ items, seedItems db = { db with items := items } := by
  have hfold : ∀ (rows : List Item) (d : DB),
      ∃ items, rows.foldl (fun d item => match d.createItem item with
        | some (d1, _) => d1
        | none => d) d = { d with items := items } := by
    intro rows
    induction rows with
    | nil => exact fun d => ⟨d.items, rfl⟩
    | cons r rs ih =>
      intro d
      simp only [List.foldl_cons]
      split
      · rename_i d1 _ hcreate
        obtain ⟨_, _, _, row, _, heq⟩ := DB.createItem_tables hcreate
        obtain ⟨items, hitems⟩ := ih d1
        exact ⟨items, by rw [hitems, heq]⟩
      · exact ih d
  unfold seedItems
  split
  · exact hfold _ _
  · exact ⟨db.items, rfl⟩

theorem cartLines_ne_nil {db : DB} {k : Nat} :
    db.cartLines k ≠ [] ↔ ∃ r ∈ db.cartItems, r.CartID = k := by
  constructor
  · intro h
    obtain ⟨r, hr⟩ := List.exists_mem_of_ne_nil _ h
    exact ⟨r, mem_cartLines.1 hr⟩
  · rintro ⟨r, hr, hk⟩ hnil
    have := mem_cartLines.2 ⟨hr, hk⟩
    rw [hnil] at this
    simp at this

theorem cartInv_addToCart (db : DB) (u : Nat) (body : Except String AddToCartRequest)
    (h : CartInv db) : CartInv (addToCart db u body).1 := by
  rcases addToCart_store db u body with heq | ⟨cart, x, _, hfind, heq⟩ | ⟨x, _, hnone, heq⟩
  · rw [heq]; exact h
  · rw [heq]
    obtain ⟨h1, h2⟩ := h
    refine ⟨h1, ?_⟩
    intro c hc hbig
    obtain ⟨r, hr, hk⟩ := cartLines_ne_nil.1 (h2 c hc hbig)
    exact cartLines_ne_nil.2 ⟨r, by simp [DB.createCartItem, hr], hk⟩
  · rw [heq]
    obtain ⟨h1, h2⟩ := h
    constructor
    · simp only [DB.createCartItem, DB.createCart, List.filter_append, List.map_append]
      by_cases hu : u < 2 ^ 63
      · have hnew : ([⟨nextID 0 (db.carts.map (fun c => c.ID)), u⟩] : List CartRow).filter
            (fun c => decide (c.UserID < 2 ^ 63)) =
            [⟨nextID 0 (db.carts.map (fun c => c.ID)), u⟩] := by
          rw [List.filter_cons]
          simp only [hu, decide_True, ↓reduceIte, List.filter_nil]
        rw [hnew]
        refine List.Nodup.append h1 (List.nodup_singleton _) ?_
        intro a ha hb
        simp only [List.map_cons, List.map_nil, List.mem_singleton] at hb
        subst hb
        obtain ⟨c, hc, hca⟩ := List.mem_map.1 ha
        have hcm : c ∈ db.carts := List.mem_of_mem_filter hc
        have hnf := firstCart_none hu (by intro c hc; simpa using hc) hnone
        have := List.find?_eq_none.1 hnf c hcm
        simp only [decide_eq_true_eq] at this
        exact this hca
      · have hnew : ([⟨nextID 0 (db.carts.map (fun c => c.ID)), u⟩] : List CartRow).filter
            (fun c => decide (c.UserID < 2 ^ 63)) = [] := by
          rw [List.filter_cons]
          simp only [hu, decide_False, Bool.false_eq_true, ↓reduceIte, List.filter_nil]
        rw [hnew]
        simpa using h1
    · intro c hc hbig
      simp only [DB.createCartItem, DB.createCart, List.mem_append, List.mem_singleton] at hc
      rcases hc with hc | rfl
      · obtain ⟨r, hr, hk⟩ := cartLines_ne_nil.1 (h2 c hc hbig)
        exact cartLines_ne_nil.2 ⟨r, by simp [DB.createCartItem, DB.createCart, hr], hk⟩
      · exact cartLines_ne_nil.2
          ⟨⟨nextID db.cartItemSeq (db.cartItems.map (fun r => r.ID)),
            nextID 0 (db.carts.map (fun c => c.ID)), x⟩,
            by simp [DB.createCartItem, DB.createCart], rfl⟩

theorem cartInv_createOrder (db : DB) (u : Nat) (body : Except String CreateOrderRequest)
    (h : CartInv db) (hpk : PKOrder db) : CartInv (createOrder db u body).1 := by
  rcases createOrder_store db u body with heq | ⟨cart, rows, hmem, hown, hlt, heq, _, _⟩
  · rw [heq]; exact h
  · rw [heq]
    obtain ⟨h1, h2⟩ := h
    refine ⟨h1, ?_⟩
    intro c hc hbig
    have hne : c.ID ≠ cart.ID := by
      intro hid
      have := eq_of_id_eq (fun r : CartRow => r.ID) hpk.carts hc hmem hid
      subst this
      omega
    obtain ⟨r, hr, hk⟩ := cartLines_ne_nil.1 (h2 c hc hbig)
    refine cartLines_ne_nil.2 ⟨r, ?_, hk⟩
    simp only [List.mem_filter, decide_eq_true_eq, decide_not, Bool.not_eq_true',
      decide_eq_false_iff_not]
    exact ⟨hr, by rw [hk]; exact hne⟩

theorem cartInv_run (L : Lib) (db : DB) (c : Call) (h : CartInv db) (hpk : PKOrder db) :
    CartInv (c.run L db).1 := by
  cases c with
  | createUser body =>
    obtain ⟨users, heq⟩ := createUser_store L db body
    simp only [Call.run]
    rw [heq]
    exact h.of_carts_eq rfl rfl
  | getUsers => exact h
  | loginUser now body =>
    obtain ⟨users, heq⟩ := loginUser_store L db now body
    simp only [Call.run]
    rw [heq]
    exact h.of_carts_eq rfl rfl
  | createItem body =>
    obtain ⟨items, heq⟩ := createItem_store db body
    simp only [Call.run]
    rw [heq]
    exact h.of_carts_eq rfl rfl
  | getItems => exact h
  | addToCart userID body => exact cartInv_addToCart db userID body h
  | getCarts userID =>
    simp only [Call.run, getCarts]
    split <;> exact h
  | createOrder userID body => exact cartInv_createOrder db userID body h hpk
  | getOrders userID => exact h

/-- In every store of sequential execution no two carts have the same owner below `2 ^ 63`,
and every cart with an owner from `2 ^ 63` on has a cart line. -/
theorem reachable_cartInv {L : Lib} {db : DB} (h : Reachable L db) : CartInv db := by
  induction h with
  | empty => exact cartInv_empty
  | seed _ ih =>
    obtain ⟨items, heq⟩ := seedItems_store _
    rw [heq]
    exact ih.of_carts_eq rfl rfl
  | call c hprev ih => exact cartInv_run L _ c ih (reachable_pkOrder hprev)

theorem length_filter_owner_le_one {carts : List CartRow}
    (h : (carts.map (fun c => c.UserID)).Nodup) (u : Nat) :
    (carts.filter (fun c => c.UserID = u)).length ≤ 1 := by
  have hcount := List.nodup_iff_count_le_one.1 h u
  rw [List.count_eq_countP, List.countP_map, List.countP_eq_length_filter] at hcount
  have hfun : ((fun x => x == u) ∘ fun c : CartRow => c.UserID) =
      fun c : CartRow => decide (c.UserID = u) := by
    funext c
    by_cases hc : c.UserID = u <;> simp [hc]
  rw [hfun] at hcount
  exact hcount

/-- In every store of sequential execution a user id below `2 ^ 63` owns at most one row of
`carts`. -/
theorem one_cart_per_user_below (L : Lib) (db : DB) (h : Reachable L db) (u : Nat)
    (hu : u < 2 ^ 63) : (db.carts.filter (fun c => c.UserID = u)).length ≤ 1 := by
  have hle := length_filter_owner_le_one (reachable_cartInv h).oneCart u
  have heq : (db.carts.filter (fun c => c.UserID < 2 ^ 63)).filter (fun c => c.UserID = u) =
      db.carts.filter (fun c => c.UserID = u) := by
    rw [List.filter_filter]
    apply List.filter_congr
    intro c _
    by_cases hc : c.UserID = u
    · have hu1 : u < 9223372036854775808 := by norm_num at hu; exact hu
      simp [hc, hu1]
    · simp [hc]
  rw [heq] at hle
  exact hle

/-- C9, failing input: `alice` registers with `"id": 9223372036854775807`, logs in at time
1000 and sends `POST /carts` for item 1 twice with her token. The token's `user_id` is read
back as the `float64` `2 ^ 63`, so the handlers run for user id `9223372036854775808`. The
first add creates cart 1 for that id; the second add finds that row, cannot read its
`user_id` back, takes the error for a miss, and creates cart 2 for the same id: a store of
sequential execution in which one user id owns two carts. -/
theorem two_adds_two_carts :
    authMiddleware refLib 2000 bigUserToken = .next 9223372036854775808 ∧
      Reachable refLib bigUserCarts ∧
      bigUserCart.carts = [⟨1, 9223372036854775808⟩] ∧
      bigUserCart.carts.find? (fun c => c.UserID = 9223372036854775808) =
        some ⟨1, 9223372036854775808⟩ ∧
      bigUserCarts.carts = [⟨1, 9223372036854775808⟩, ⟨2, 9223372036854775808⟩] ∧
      (bigUserCarts.carts.filter (fun c => c.UserID = 9223372036854775808)).length = 2 :=
  ⟨by decide, reachable_bigUserCarts, by decide, by decide, by decide, by decide⟩

/-! ## Ordering from an empty cart -/

/-- One `addToCart` of an existing item by a user below `2 ^ 63`, in a store that satisfies
`Inv`: 201, the catalog untouched, and the user's cart lines as before with one new line
for the item at the end. -/
theorem addToCart_step {db : DB} (hinv : Inv db) (u x : Nat) (hu63 : u < 2 ^ 63)
    (hx : ∃ i ∈ db.items, i.ID = x) :
    (addToCart db u (.ok ⟨x⟩)).2 = ⟨201, .message "Item added to cart"⟩ ∧
      (addToCart db u (.ok ⟨x⟩)).1.items = db.items ∧
      ((addToCart db u (.ok ⟨x⟩)).1.firstCartOf u).isSome = true ∧
      ∃ line : CartItem, line.ItemID = x ∧
        (addToCart db u (.ok ⟨x⟩)).1.userLines u = db.userLines u ++ [line] := by
  obtain ⟨i, hi, hix⟩ := hx
  have h0 : x ≠ 0 := hix ▸ hinv.itemID_ne_zero i hi
  have hitem : ∃ j, db.items.find? (fun i => i.ID = x) = some j := by
    cases hf : db.items.find? (fun i => i.ID = x) with
    | none =>
      have := List.find?_eq_none.1 hf i hi
      simp [hix] at this
    | some j => exact ⟨j, rfl⟩
  obtain ⟨j, hj⟩ := hitem
  rw [addToCart_bound _ _ _ h0, hj]
  cases hfirst : db.firstCart (fun c => c.UserID = u) with
  | some cart =>
    have hfirst1 : (db.createCartItem cart.ID x).1.firstCart (fun c => c.UserID = u) =
        some cart := hfirst
    refine ⟨rfl, rfl, ?_, ?_⟩
    · simp [DB.firstCartOf, hfirst1]
    · refine ⟨⟨nextID db.cartItemSeq (db.cartItems.map (fun r => r.ID)), cart.ID, x,
        db.itemOf x⟩, rfl, ?_⟩
      simp only [DB.userLines, DB.firstCartOf, hfirst1, hfirst, Option.map_some',
        Option.getD_some]
      simp [DB.createCartItem, DB.cartLines, DB.itemOf, List.filter_append]
  | none =>
    have hfind : db.carts.find? (fun c => decide (c.UserID = u)) = none :=
      firstCart_none hu63 (by intro c hc; simpa using hc) hfirst
    have hold : db.cartItems.filter
        (fun r => r.CartID = nextID 0 (db.carts.map (fun c => c.ID))) = [] := by
      rw [List.filter_eq_nil_iff]
      intro r hr
      obtain ⟨c, hc, hid⟩ := hinv.cartLine_ref r hr
      simp only [decide_eq_true_eq]
      rw [← hid]
      exact Nat.ne_of_lt (lt_nextID (List.mem_map.2 ⟨c, hc, rfl⟩))
    have hfirst1 : ((db.createCart u).1.createCartItem (db.createCart u).2.ID x).1.firstCart
        (fun c => c.UserID = u) = some ⟨nextID 0 (db.carts.map (fun c => c.ID)), u⟩ := by
      simp only [DB.firstCart, DB.createCartItem, DB.createCart, List.find?_append, hfind,
        Option.none_or, List.find?_cons, decide_True, hu63, ↓reduceIte]
    refine ⟨rfl, rfl, ?_, ?_⟩
    · simp [DB.firstCartOf, hfirst1]
    · refine ⟨⟨nextID db.cartItemSeq (db.cartItems.map (fun r => r.ID)),
        nextID 0 (db.carts.map (fun c => c.ID)), x, db.itemOf x⟩, rfl, ?_⟩
      simp only [DB.userLines, DB.firstCartOf, hfirst1, hfirst, Option.map_some',
        Option.getD_some, Option.map_none', Option.getD_none, List.nil_append]
      simp [DB.createCartItem, DB.createCart, DB.cartLines, DB.itemOf, List.filter_append,
        hold]

/-- What holds of C4: in every store that satisfies `Inv`, for a user id `u` below
`2 ^ 63`, `addToCart(u, x)` for the id `x` of an existing item answers 201, after which
`getCarts(u)` finds a cart, and the cart lines of `u` are the lines before (none when `u`
had no cart) followed by one new line for `x`: no line is merged. So two such calls by a
user without a cart leave exactly two lines, both for `x`. -/
theorem addToCart_appends_line_below (db : DB) (u x : Nat) (hinv : Inv db)
    (hu63 : u < 2 ^ 63) (hx : ∃ i ∈ db.items, i.ID = x) :
    (addToCart db u (.ok ⟨x⟩)).2 = ⟨201, .message "Item added to cart"⟩ ∧
      ((addToCart db u (.ok ⟨x⟩)).1.firstCartOf u).isSome = true ∧
      (∃ line : CartItem, line.ItemID = x ∧
        (addToCart db u (.ok ⟨x⟩)).1.userLines u = db.userLines u ++ [line]) ∧
      ((addToCart db u (.ok ⟨x⟩)).1.userLines u).length = (db.userLines u).length + 1 ∧
      (db.firstCartOf u = none →
        (addToCart (addToCart db u (.ok ⟨x⟩)).1 u (.ok ⟨x⟩)).2 =
          ⟨201, .message "Item added to cart"⟩ ∧
        ∃ l1 l2 : CartItem, l1.ItemID = x ∧ l2.ItemID = x ∧
          (addToCart (addToCart db u (.ok ⟨x⟩)).1 u (.ok ⟨x⟩)).1.userLines u = [l1, l2]) := by
  obtain ⟨hresp, hitems, hsome, line, hline, hlines⟩ := addToCart_step hinv u x hu63 hx
  have hinv1 : Inv (addToCart db u (.ok ⟨x⟩)).1 := inv_addToCart db u _ hinv
  obtain ⟨hresp2, _, _, line2, hline2, hlines2⟩ :=
    addToCart_step hinv1 u x hu63 (by rw [hitems]; exact hx)
  refine ⟨hresp, hsome, ⟨line, hline, hlines⟩, ?_, ?_⟩
  · rw [hlines]; simp
  · intro hnone
    refine ⟨hresp2, line, line2, hline, hline2, ?_⟩
    rw [hlines2, hlines]
    simp [DB.userLines, hnone]

/-- The two adds of user 7 on the seeded store, which lead to `cartStore`. -/
theorem addToCart_appends_line_below_example :
    ∃ l1 l2 : CartItem, l1.ItemID = 1 ∧ l2.ItemID = 1 ∧ cartStore.userLines 7 = [l1, l2] :=
  ((addToCart_appends_line_below (seedItems DB.empty) 7 1
    (reachable_inv (Reachable.seed (Reachable.empty : Reachable refLib DB.empty)))
    (by decide) (by decide)).2.2.2.2
    (by decide)).2

/-- C4, failing input: the same requests as for C9. Item 1 exists and both
`POST /carts` answer 201, but after the first one `GET /carts` with the same token answers
404, and after the second one the user id `9223372036854775808` has two carts with one
line each, where the claim has one cart with two lines: the lookup by owner cannot read
the cart row back and `addToCart` takes the error for a miss. -/
theorem addToCart_big_user_second_cart :
    (∃ i ∈ bigUserLogin.items, i.ID = 1) ∧
      (serve refLib bigUserLogin 2000 (.postCarts bigUserToken (.ok ⟨1⟩))).2 =
        ⟨201, .message "Item added to cart"⟩ ∧
      (serve refLib bigUserCart 2000 (.getCarts bigUserToken)).2 =
        ⟨404, .error "Cart not found"⟩ ∧
      (serve refLib bigUserCart 2000 (.postCarts bigUserToken (.ok ⟨1⟩))).2 =
        ⟨201, .message "Item added to cart"⟩ ∧
      bigUserCarts.carts = [⟨1, 9223372036854775808⟩, ⟨2, 9223372036854775808⟩] ∧
      bigUserCarts.cartLines 1 = [⟨1, 1, 1⟩] ∧ bigUserCarts.cartLines 2 = [⟨2, 2, 1⟩] ∧
      (serve refLib bigUserCarts 2000 (.getCarts bigUserToken)).2 =
        ⟨404, .error "Cart not found"⟩ := by
  decide

/-! ## Authentication -/

/-- No `float64` converts to the unsigned integer `2 ^ 53 + 1`. -/
theorem Float64.toUint_ne (f : Float64) : f.toUint ≠ 9007199254740993 := by
  obtain ⟨m, e, hm⟩ := f
  simp only [Float64.toUint]
  norm_num at hm
  split
  · cases e with
    | zero => simp only [pow_zero, mul_one]; omega
    | succ k =>
      rw [pow_succ]
      generalize 2 ^ k = p
      intro h
      have h2 : m * (p * 2) = 2 * (m * p) := by ring
      omega
  · norm_num

/-- The outcomes of `authMiddleware`: 401 and no handler; or the handler runs with the
`float64` claim `user_id` converted to `uint`; or, for a token that `jwt.Parse` accepts
whose claim `user_id` is absent or not a `float64`, a panic. -/
theorem authMiddleware_outcomes (L : Lib) (now : Nat) (authorization : String) :
    (∃ msg, authMiddleware L now authorization = .abort ⟨401, .error msg⟩) ∨
      (∃ f : Float64, authMiddleware L now authorization = .next f.toUint) ∨
      (authMiddleware L now authorization = .panicked ∧
        ∃ tokenString claims, L.Parse tokenString jwtSecret now = some claims ∧
          ∀ f, claims.lookup "user_id" ≠ some (.float64 f)) := by
  unfold authMiddleware
  dsimp only
  split
  · exact Or.inl ⟨_, rfl⟩
  · split
    · exact Or.inl ⟨_, rfl⟩
    · rename_i claims hparse
      split
      · rename_i f _
        exact Or.inr (Or.inl ⟨f, rfl⟩)
      · rename_i hno
        refine Or.inr (Or.inr ⟨rfl, _, claims, hparse, ?_⟩)
        intro f hf
        exact hno f hf

/-- Whatever the libraries do, no `Authorization` header makes `authMiddleware` put the
user id `2 ^ 53 + 1` in the context. -/
theorem authMiddleware_ne_next (L : Lib) (now : Nat) (authorization : String) :
    authMiddleware L now authorization ≠ .next 9007199254740993 := by
  rcases authMiddleware_outcomes L now authorization with ⟨msg, h⟩ | ⟨f, h⟩ | ⟨h, _⟩
  · rw [h]; simp
  · rw [h]
    intro hf
    exact Float64.toUint_ne f (AuthResult.next.inj hf)
  · rw [h]; simp

/-- C8, failing input: `alice` registers with the id `2 ^ 53 + 1` in the request body and
logs in at time 1000. The token carries `user_id` `9007199254740993` and `exp` `87400`, but
`authMiddleware`, given that token at time 2000 raw or after `Bearer `, puts the user id
`9007199254740992` in the context: the claim is read back as a `float64`. No header at all
yields `9007199254740993`, whatever the libraries do. -/
theorem login_token_loses_large_user_id :
    (∃ u ∈ bigIDStore.users, u.ID = 9007199254740993 ∧ u.Username = "alice") ∧
      (loginUser refLib bigIDStore 1000 (.ok ⟨"alice", "pw123"⟩)).2 =
        ⟨200, .login ⟨"eyJ.9007199254740993.87400.your-secret-key",
          ⟨9007199254740993, "alice", "", "eyJ.9007199254740993.87400.your-secret-key"⟩⟩⟩ ∧
      authMiddleware refLib 2000 "eyJ.9007199254740993.87400.your-secret-key" =
        .next 9007199254740992 ∧
      authMiddleware refLib 2000 "Bearer eyJ.9007199254740993.87400.your-secret-key" =
        .next 9007199254740992 ∧
      ∀ (L : Lib) (now : Nat) (authorization : String),
        authMiddleware L now authorization ≠ .next 9007199254740993 :=
  ⟨by decide, by decide, by decide, by decide, authMiddleware_ne_next⟩

/-- C10, failing input: a token that `jwt.Parse` accepts (signed with the service secret,
`exp` 3000, checked at time 2000) and that carries no claim `user_id`. `authMiddleware`
neither answers 401 nor calls the handler: the type assertion panics, and the route answers
500 with no body. -/
theorem authMiddleware_panics_without_user_id :
    (refLib.Parse "eyJ..3000.your-secret-key" jwtSecret 2000).isSome = true ∧
      authMiddleware refLib 2000 "eyJ..3000.your-secret-key" = .panicked ∧
      authMiddleware refLib 2000 "Bearer eyJ..3000.your-secret-key" = .panicked ∧
      serve refLib cartStore 2000 (.getCarts "Bearer eyJ..3000.your-secret-key") =
        (cartStore, ⟨500, .empty⟩) := by
  decide

/-! ## Login and authentication round trip -/

/-- `authMiddleware` on a raw token that `jwt.Parse` accepts with a `float64` claim
`user_id`: the handler runs with that claim converted to `uint`. -/
theorem authMiddleware_raw (L : Lib) (now : Nat) (tok : String) (claims : MapClaims)
    (f : Float64) (hne : tok ≠ "") (hraw : tok.data.take 7 ≠ "Bearer ".data)
    (hparse : L.Parse tok jwtSecret now = some claims)
    (huid : claims.lookup "user_id" = some (.float64 f)) :
    authMiddleware L now tok = .next f.toUint := by
  unfold authMiddleware
  simp only [hne, ↓reduceIte, hraw, and_false, hparse, huid]

/-- `authMiddleware` on `Bearer ` followed by such a token. -/
theorem authMiddleware_bearer (L : Lib) (now : Nat) (tok : String) (claims : MapClaims)
    (f : Float64) (hne : tok ≠ "")
    (hparse : L.Parse tok jwtSecret now = some claims)
    (huid : claims.lookup "user_id" = some (.float64 f)) :
    authMiddleware L now ("Bearer " ++ tok) = .next f.toUint := by
  have hdata : ("Bearer " ++ tok).data = "Bearer ".data ++ tok.data := String.data_append _ _
  have hlen : "Bearer ".data.length = 7 := by decide
  have hpos : 0 < tok.data.length := by
    cases htd : tok.data with
    | nil => exact absurd (String.ext htd) hne
    | cons c cs => simp
  have h2 : ("Bearer " ++ tok).length > 7 := by
    have h7 : "Bearer ".length = 7 := by decide
    have htl : tok.length = tok.data.length := rfl
    rw [String.length_append, h7, htl]
    omega
  have h1 : ("Bearer " ++ tok) ≠ "" := by
    intro h
    rw [h] at h2
    simp at h2
  have h3 : ("Bearer " ++ tok).data.take 7 = "Bearer ".data := by
    rw [hdata, ← hlen, List.take_left']
    rfl
  have h4 : String.mk (("Bearer " ++ tok).data.drop 7) = tok := by
    rw [hdata, ← hlen, List.drop_left']
    rfl
  unfold authMiddleware
  simp only [h1, ↓reduceIte, h2, h3, and_self, h4, hparse, huid]

/-- Login followed by authentication, with the contracts of the libraries as hypotheses:
for a registered user with the right password, when signing the login claims yields the
non-empty token `tok` (which, being base64url text, does not begin with `Bearer `), and
`jwt.Parse` at time `now` accepts `tok` with a claim `user_id` that is a `float64` equal to
the user's id, then `loginUser` at time `t` stores and returns `tok`, signed over `user_id`
and `exp = t + 86400`, and `authMiddleware` puts the user's id in the context for the raw
token and for `Bearer ` followed by it. The hypothesis on the `float64` is where ids that a
`float64` cannot hold are left out. -/
theorem login_authenticate_roundtrip (L : Lib) (db : DB) (t now : Nat) (req : LoginRequest)
    (user : User) (tok : String) (claims : MapClaims) (f : Float64)
    (hname : req.Username ≠ "") (hpass : req.Password ≠ "")
    (hfind : db.users.find? (fun u => u.Username = req.Username) = some user)
    (hpw : L.CompareHashAndPassword user.Password req.Password = true)
    (hsign : L.SignedString
      [("user_id", .uint user.ID), ("exp", .int64 (t + 86400 : Nat))] jwtSecret = some tok)
    (hne : tok ≠ "") (hraw : tok.data.take 7 ≠ "Bearer ".data)
    (hparse : L.Parse tok jwtSecret now = some claims)
    (huid : claims.lookup "user_id" = some (.float64 f)) (hexact : f.toUint = user.ID) :
    loginUser L db t (.ok req) =
        (db.updateToken user.ID tok,
          ⟨200, .login ⟨tok, { user with Token := tok, Password := "" }⟩⟩) ∧
      authMiddleware L now tok = .next user.ID ∧
      authMiddleware L now ("Bearer " ++ tok) = .next user.ID := by
  refine ⟨?_, ?_, ?_⟩
  · simp only [loginUser, bindLoginRequest, hname, hpass, false_and, ↓reduceIte, hfind, hpw,
      loginClaims, hsign]
    simp
  · rw [authMiddleware_raw L now tok claims f hne hraw hparse huid, hexact]
  · rw [authMiddleware_bearer L now tok claims f hne hparse huid, hexact]

/-- The round trip on `aliceStore` with the reference libraries: `alice` has id 1. -/
theorem login_authenticate_roundtrip_example :
    loginUser refLib aliceStore 1000 (.ok ⟨"alice", "pw123"⟩) =
        (aliceStore.updateToken 1 "eyJ.1.87400.your-secret-key",
          ⟨200, .login ⟨"eyJ.1.87400.your-secret-key",
            ⟨1, "alice", "", "eyJ.1.87400.your-secret-key"⟩⟩⟩) ∧
      authMiddleware refLib 2000 "eyJ.1.87400.your-secret-key" = .next 1 ∧
      authMiddleware refLib 2000 "Bearer eyJ.1.87400.your-secret-key" = .next 1 :=
  login_authenticate_roundtrip refLib aliceStore 1000 2000 ⟨"alice", "pw123"⟩
    ⟨1, "alice", refHash "pw123", ""⟩ "eyJ.1.87400.your-secret-key"
    [("user_id", .float64 (Float64.ofNat 1)), ("exp", .float64 (Float64.ofNat 87400))]
    (Float64.ofNat 1) (by decide) (by decide) (by decide) (by decide)
    (by decide) (by decide) (by decide) (by rfl) (by rfl) (by decide)

end ShoppingCart
